import Mathlib

/-!
Verification of the Speedarr bandwidth-arbitration core.

The definitions below are a shallow embedding of the Python sources
(`app/services/decision_engine.py`, `app/services/polling_monitor.py`,
`app/utils/bandwidth.py`, and the client adapters).  Bandwidth values,
which the source holds in Python floats, are modelled as exact rationals
(`ℚ`); `round(x, 2)` is modelled as rounding to the nearest multiple of
1/100 (Python rounds half-to-even, Mathlib's `round` rounds half-up; the
two differ only on exact half-cent ties, which none of the statements
below depend on).  Dictionaries keyed by client id are modelled either as
association lists in insertion order or as total functions that agree
with the dictionary on every key it holds.
-/

namespace Speedarr

/-- `round(x, 2)`: round to 2 decimal places. -/
def round2 (q : ℚ) : ℚ := (round (q * 100) : ℚ) / 100

/-- Python `int()` applied to a rational: truncation toward zero. -/
def pyInt (q : ℚ) : ℤ := if 0 ≤ q then ⌊q⌋ else -⌊-q⌋

/-- Truthiness of an optional string, as Python evaluates it:
`None` and the empty string are falsy. -/
def truthy : Option String → Bool
  | none => false
  | some s => !s.isEmpty

/-- `needle` occurs at the head of `haystack` (character lists). -/
def charsLeading : List Char → List Char → Bool
  | [], _ => true
  | _ :: _, [] => false
  | a :: as, b :: bs => a == b && charsLeading as bs

/-- Substring test on character lists: Python's `needle in haystack`. -/
def charsContains (needle : List Char) : List Char → Bool
  | [] => charsLeading needle []
  | b :: bs => charsLeading needle (b :: bs) || charsContains needle bs

/-- Python `needle in haystack.lower()` for strings (needle already lowercase). -/
def containsLowered (haystack needle : String) : Bool :=
  charsContains needle.toList (haystack.toList.map Char.toLower)

/-! ## Data model: stream sessions and client stats -/

/-- One Plex stream session, with the fields the core reads
(`session_id`, `user_id`, `player`, `media_type`, `quality_profile`,
`stream_bitrate_mbps`, `is_lan`).  Missing dictionary keys are `none`
for the string fields and `0` for the bitrate. -/
structure Sess where
  sessionId : Option String
  userId : Option String
  player : Option String
  mediaType : Option String
  qualityProfile : Option String
  bitrate : ℚ
  isLan : Bool
  deriving DecidableEq, Repr

/-- One entry of the `download_stats` dict: per-client poll result with
the fields the decision engine reads (`download_speed`, `upload_speed`,
`supports_upload`); absent keys default to `0` / `False`. -/
structure ClientStat where
  id : String
  downloadSpeed : ℚ
  uploadSpeed : ℚ
  supportsUpload : Bool
  deriving DecidableEq, Repr

/-- `app/utils/bandwidth.py` `calculate_stream_bandwidth`: clamp overhead
to [0, 300]; use the bitrate when positive, otherwise a quality-profile
fallback (4K→40, 1080p/HD→12, 720p→6, else 4); apply the overhead
multiplier; clamp the result at 0. -/
def calculate_stream_bandwidth (s : Sess) (overheadPercent : ℚ) : ℚ :=
  let ov := max 0 (min 300 overheadPercent)
  let base : ℚ :=
    if s.bitrate > 0 then s.bitrate
    else
      let q := s.qualityProfile.getD ""
      if containsLowered q "4k" || containsLowered q "2160" then 40
      else if containsLowered q "1080" || containsLowered q "hd" then 12
      else if containsLowered q "720" then 6
      else 4
  max 0 (base * (1 + ov / 100))

/-- `filter_streams_for_bandwidth`: drop LAN streams unless the
LAN-inclusion flag is set. -/
def filter_streams_for_bandwidth (streams : List Sess) (includeLanStreams : Bool) : List Sess :=
  if includeLanStreams then streams else streams.filter (fun s => !s.isLan)

/-! ## Configuration snapshot -/

/-- `TimeBasedScheduleConfig`.  The source stores `start_time`/`end_time`
as "HH:MM" strings and parses them on every evaluation; here they are
held already parsed, as seconds since midnight. -/
structure ScheduleConfig where
  enabled : Bool
  startSec : ℕ
  endSec : ℕ
  totalLimit : ℚ
  clientPercents : List (String × ℚ)
  deriving DecidableEq, Repr

/-- `DownloadBandwidthConfig`. -/
structure DownloadConfig where
  totalLimit : ℚ
  clientPercents : List (String × ℚ)
  inactiveSafetyNetPercent : ℚ
  scheduled : ScheduleConfig
  deriving DecidableEq, Repr

/-- `UploadBandwidthConfig`. -/
structure UploadConfig where
  totalLimit : ℚ
  uploadClientPercents : List (String × ℚ)
  scheduled : ScheduleConfig
  deriving DecidableEq, Repr

/-- `StreamBandwidthConfig`.  `download_reserve_percent` is read by the
decision engine but is absent from the source's configuration type; it
is modelled as a field here (the spec resolves this by giving it a
documented default of 0). -/
structure StreamsConfig where
  overheadPercent : ℚ
  downloadReservePercent : ℚ
  deriving DecidableEq, Repr

/-- The slice of `SpeedarrConfig` the decision engine reads
(`bandwidth.*` plus `plex.include_lan_streams`). -/
structure EngineConfig where
  download : DownloadConfig
  upload : UploadConfig
  streams : StreamsConfig
  includeLanStreams : Bool
  deriving DecidableEq, Repr

/-- `is_within_schedule`: current time-of-day is inside the window.
`start ≤ end` is a same-day window with inclusive bounds; `start > end`
wraps midnight.  A disabled schedule is never within.  (The source
compares `datetime.now(timezone.utc).time()` against the parsed times;
`now` is that UTC time-of-day, in seconds since midnight.) -/
def is_within_schedule (sch : ScheduleConfig) (now : ℕ) : Bool :=
  if !sch.enabled then false
  else if sch.startSec ≤ sch.endSec then
    decide (sch.startSec ≤ now) && decide (now ≤ sch.endSec)
  else
    decide (now ≥ sch.startSec) || decide (now ≤ sch.endSec)

/-- The `_temporary_limits` record kept by the polling monitor. -/
structure TemporaryLimits where
  expiresAt : ℕ
  downloadMbps : Option ℚ
  uploadMbps : Option ℚ
  deriving DecidableEq, Repr

/-- `PollingMonitor.get_active_temporary_limits`: return the stored
override unless it is absent or expired (`now > expires_at`). -/
def get_active_temporary_limits (tl : Option TemporaryLimits) (nowAbs : ℕ) :
    Option ℚ × Option ℚ :=
  match tl with
  | none => (none, none)
  | some t => if nowAbs > t.expiresAt then (none, none) else (t.downloadMbps, t.uploadMbps)

/-- Effective download total: temporary override first, then the
scheduled alternate (when in window and positive), then the configured
total (`calculate_throttle`, capacity resolution). -/
def effectiveDownloadLimit (cfg : EngineConfig) (tempDownload : Option ℚ) (now : ℕ) : ℚ :=
  match tempDownload with
  | some v => v
  | none =>
    if is_within_schedule cfg.download.scheduled now && decide (cfg.download.scheduled.totalLimit > 0) then
      cfg.download.scheduled.totalLimit
    else cfg.download.totalLimit

/-- Effective upload total, symmetric to `effectiveDownloadLimit`. -/
def effectiveUploadLimit (cfg : EngineConfig) (tempUpload : Option ℚ) (now : ℕ) : ℚ :=
  match tempUpload with
  | some v => v
  | none =>
    if is_within_schedule cfg.upload.scheduled now && decide (cfg.upload.scheduled.totalLimit > 0) then
      cfg.upload.scheduled.totalLimit
    else cfg.upload.totalLimit

/-- Total stream bandwidth with overhead (`total_stream_bandwidth` in
`calculate_throttle`): 0 when there are no streams, else the sum of
per-stream costs over the LAN-filtered list. -/
def totalStreamBandwidth (cfg : EngineConfig) (activeStreams : List Sess) : ℚ :=
  if activeStreams.isEmpty then 0
  else
    ((filter_streams_for_bandwidth activeStreams cfg.includeLanStreams).map
      (fun s => calculate_stream_bandwidth s cfg.streams.overheadPercent)).sum

/-- Available download bandwidth: total minus the download reserve
(stream-cost fraction plus held download reservations), constrained by
the SNMP download reading when present, clamped at 0 at each step.
`snmpDownloadSpeed` models `snmp_data["download_speed"]` when the dict
is provided. -/
def availableDownloadOf (cfg : EngineConfig) (activeStreams : List Sess)
    (snmpDownloadSpeed : Option ℚ) (reservedDownload : ℚ)
    (tempDownload : Option ℚ) (now : ℕ) : ℚ :=
  let downloadTotal := effectiveDownloadLimit cfg tempDownload now
  let streamBw := totalStreamBandwidth cfg activeStreams
  let reservePercent := cfg.streams.downloadReservePercent
  let activeReserve := if reservePercent > 0 then streamBw * (reservePercent / 100) else 0
  let totalReserve := activeReserve + reservedDownload
  let avail0 := max 0 (downloadTotal - totalReserve)
  let avail1 :=
    match snmpDownloadSpeed with
    | some snmpDown => max 0 (avail0 - snmpDown)
    | none => avail0
  max 0 avail1

/-- Ids of upload-capable clients, in `download_stats` order. -/
def uploadClientsOf (stats : List ClientStat) : List String :=
  (stats.filter (fun cl => cl.supportsUpload)).map (fun cl => cl.id)

/-- Available upload bandwidth: total minus stream cost minus held
reservations, clamped at 0; replaced by the emergency pool
(1% of the upload total per upload-capable client) when the stream cost
exceeds the upload total and at least one upload-capable client exists. -/
def availableUploadOf (cfg : EngineConfig) (activeStreams : List Sess)
    (stats : List ClientStat) (reservedBandwidth : ℚ)
    (tempUpload : Option ℚ) (now : ℕ) : ℚ :=
  let uploadTotal := effectiveUploadLimit cfg tempUpload now
  let streamBw := totalStreamBandwidth cfg activeStreams
  let uploadBeforeReservation := uploadTotal - streamBw
  let avail := max 0 (uploadBeforeReservation - reservedBandwidth)
  let uploadClients := uploadClientsOf stats
  if streamBw > uploadTotal && !uploadClients.isEmpty then
    uploadTotal * (1 / 100) * uploadClients.length
  else avail

/-! ## Activity classification (inactive-streak hysteresis) -/

/-- `DecisionEngine.INACTIVE_BUFFER_INTERVALS`. -/
def INACTIVE_BUFFER_INTERVALS : ℕ := 6

/-- One client's classification on a tick: above the threshold it is
active (and its streak resets); below, the streak increments and the
client stays "active" while the incremented streak is under the buffer. -/
def isActiveTick (speed threshold : ℚ) (counter : ℕ) : Bool :=
  if speed > threshold then true else decide (counter + 1 < INACTIVE_BUFFER_INTERVALS)

/-- The client's inactive streak after the tick. -/
def nextCounter (speed threshold : ℚ) (counter : ℕ) : ℕ :=
  if speed > threshold then 0 else counter + 1

/-- `active_downloading`: ids of clients classified active this tick,
in `download_stats` order. -/
def activeDownloading (stats : List ClientStat) (threshold : ℚ)
    (dc : String → ℕ) : List String :=
  (stats.filter (fun cl => isActiveTick cl.downloadSpeed threshold (dc cl.id))).map
    (fun cl => cl.id)

/-- `self._inactive_counter` after the tick: each client id present in
`download_stats` maps to its updated streak (ids are dict keys, hence
distinct); other names are untouched. -/
def updatedDownCounters (stats : List ClientStat) (threshold : ℚ)
    (dc : String → ℕ) : String → ℕ :=
  fun n =>
    match stats.find? (fun cl => cl.id == n) with
    | some cl => nextCounter cl.downloadSpeed threshold (dc n)
    | none => dc n

/-- `active_uploading`: classification over the upload-capable clients
only, against their upload speeds. -/
def activeUploading (stats : List ClientStat) (threshold : ℚ)
    (uc : String → ℕ) : List String :=
  (stats.filter (fun cl => cl.supportsUpload && isActiveTick cl.uploadSpeed threshold (uc cl.id))).map
    (fun cl => cl.id)

/-- `self._upload_inactive_counter` after the tick (only upload-capable
clients are visited by the loop). -/
def updatedUpCounters (stats : List ClientStat) (threshold : ℚ)
    (uc : String → ℕ) : String → ℕ :=
  fun n =>
    match (stats.filter (fun cl => cl.supportsUpload)).find? (fun cl => cl.id == n) with
    | some cl => nextCounter cl.uploadSpeed threshold (uc n)
    | none => uc n

/-- The download activity threshold: 10% of the standby (equal-split)
share; 0 when there are no clients. -/
def downloadThresholdOf (stats : List ClientStat) (availableDownload : ℚ) : ℚ :=
  let standby := if stats.isEmpty then 0 else availableDownload / stats.length
  standby * (10 / 100)

/-- The upload activity threshold: 10% of the upload standby share
(only evaluated when upload-capable clients exist; 0 otherwise). -/
def uploadThresholdOf (stats : List ClientStat) (availableUpload : ℚ) : ℚ :=
  let ucl := uploadClientsOf stats
  if ucl.isEmpty then 0 else availableUpload / ucl.length * (10 / 100)

/-! ## The dynamic allocator -/

/-- `'type_uniqueId'.split('_')[0]`; a client id without an underscore is
its own type. -/
def get_client_type (clientId : String) : String :=
  (clientId.splitOn "_").headD clientId

/-- Dict `.get` with a default on an association list. -/
def lookupD (ps : List (String × ℚ)) (k : String) (d : ℚ) : ℚ :=
  (ps.lookup k).getD d

/-- The dynamic allocation rules shared verbatim by
`_allocate_download_bandwidth` and the branch logic of
`_calculate_upload_limits`.  Viewed as the total function that agrees
with the allocations dict on every key it holds:
* no active client: equal split of the pool;
* one active client: each inactive client gets the safety-net fraction,
  the active client gets the (unclamped) remainder fraction;
* several active clients: inactive clients get the safety-net fraction;
  the active pool is split by the configured per-type percents
  normalized over the active set when every active client's type is
  configured (equal split if they sum to 0), else equally. -/
def dynamicAllocation (clients : List String) (available : ℚ)
    (active : List String) (percents : List (String × ℚ)) (safetyNet : ℚ) :
    String → ℚ :=
  let equalPercent : ℚ := 100 / clients.length
  match active with
  | [] => fun _ => available / clients.length
  | [a] =>
    let inactive := clients.filter (fun c => decide (c ≠ a))
    let activePercent := 1 - safetyNet * inactive.length
    fun c => if c = a then available * activePercent else available * safetyNet
  | _ :: _ :: _ =>
    let inactive := clients.filter (fun c => decide (c ∉ active))
    let activePool := 1 - safetyNet * inactive.length
    let allConfigured := active.all (fun c => (percents.lookup (get_client_type c)).isSome)
    let raw : String → ℚ := fun c => lookupD percents (get_client_type c) equalPercent
    let totalRaw := (active.map raw).sum
    let normalized : String → ℚ :=
      if allConfigured then
        if totalRaw = 0 then fun _ => 1 / active.length else fun c => raw c / totalRaw
      else fun _ => 1 / active.length
    fun c =>
      if c ∈ active then available * activePool * normalized c
      else available * safetyNet

/-- `_allocate_download_bandwidth` (empty client list yields the empty
dict, i.e. the all-zero function). -/
def allocate_download_bandwidth (allClients : List String) (availableDownload : ℚ)
    (active : List String) (percents : List (String × ℚ)) (safetyNet : ℚ) :
    String → ℚ :=
  if allClients.isEmpty then fun _ => 0
  else dynamicAllocation allClients availableDownload active percents safetyNet

/-- `_calculate_upload_limits` as a function of the already-computed
active-uploading list: non-upload-capable clients (and unknown ids) get
0; with no upload-capable clients everything is 0; otherwise the shared
dynamic allocation over the upload-capable clients. -/
def uploadLimitsFun (stats : List ClientStat) (availableUpload : ℚ)
    (activeUp : List String) (percents : List (String × ℚ)) (safetyNet : ℚ) :
    String → ℚ :=
  let ucl := uploadClientsOf stats
  if ucl.isEmpty then fun _ => 0
  else fun c =>
    if c ∈ ucl then dynamicAllocation ucl availableUpload activeUp percents safetyNet c
    else 0

/-- One per-client decision (the `reason` string, a pure function of the
same inputs, is not modelled). -/
structure Decision where
  downloadLimit : ℚ
  uploadLimit : ℚ
  deriving DecidableEq, Repr

/-- The download client percents used this tick: the scheduled ones when
in the schedule window and non-empty, else the configured ones. -/
def downloadPercentsUsed (cfg : EngineConfig) (now : ℕ) : List (String × ℚ) :=
  if is_within_schedule cfg.download.scheduled now && !cfg.download.scheduled.clientPercents.isEmpty then
    cfg.download.scheduled.clientPercents
  else cfg.download.clientPercents

/-- The upload client percents used this tick. -/
def uploadPercentsUsed (cfg : EngineConfig) (now : ℕ) : List (String × ℚ) :=
  if is_within_schedule cfg.upload.scheduled now && !cfg.upload.scheduled.clientPercents.isEmpty then
    cfg.upload.scheduled.clientPercents
  else cfg.upload.uploadClientPercents

/-- Safety-net fraction (`inactive_safety_net_percent / 100`, read from
the download config for both directions). -/
def safetyNetOf (cfg : EngineConfig) : ℚ :=
  cfg.download.inactiveSafetyNetPercent / 100

/-- `DecisionEngine.calculate_throttle`.  Inputs are the cached stream
list, the per-client stats in dict order, the SNMP download reading (if
a reading dict was passed), the reserved upload and download sums, the
resolved temporary overrides, the UTC time-of-day `now` (seconds), and
the two inactive-streak counter maps.  Returns the decisions keyed by
client id (in `download_stats` order) and the updated counter maps. -/
def calculate_throttle (cfg : EngineConfig) (activeStreams : List Sess)
    (stats : List ClientStat) (snmpDownloadSpeed : Option ℚ)
    (reservedBandwidth : ℚ) (tempDownload tempUpload : Option ℚ)
    (reservedDownload : ℚ) (now : ℕ) (dc uc : String → ℕ) :
    List (String × Decision) × (String → ℕ) × (String → ℕ) :=
  let availableDownload :=
    availableDownloadOf cfg activeStreams snmpDownloadSpeed reservedDownload tempDownload now
  let availableUpload :=
    availableUploadOf cfg activeStreams stats reservedBandwidth tempUpload now
  let allClients := stats.map (fun cl => cl.id)
  let thrD := downloadThresholdOf stats availableDownload
  let activeDown := activeDownloading stats thrD dc
  let dcNew := updatedDownCounters stats thrD dc
  let downloadAllocations :=
    allocate_download_bandwidth allClients availableDownload activeDown
      (downloadPercentsUsed cfg now) (safetyNetOf cfg)
  let thrU := uploadThresholdOf stats availableUpload
  let activeUp := activeUploading stats thrU uc
  let ucNew :=
    if (uploadClientsOf stats).isEmpty then uc else updatedUpCounters stats thrU uc
  let uploadAllocations :=
    uploadLimitsFun stats availableUpload activeUp (uploadPercentsUsed cfg now) (safetyNetOf cfg)
  let decisions := allClients.map (fun c =>
    (c, Decision.mk (round2 (downloadAllocations c)) (round2 (uploadAllocations c))))
  (decisions, dcNew, ucNew)

/-! ## Reservations (bandwidth holds) -/

/-- One entry of `PollingMonitor._reservations`.  The id is built from
user, player and creation timestamp; the expiry timer task is not
modelled (cancelling a reservation removes it from the list, which is
what every reader of the table observes). -/
structure Reservation where
  rid : String
  bandwidthMbps : ℚ
  userId : Option String
  player : Option String
  deriving DecidableEq, Repr

/-- `get_total_reserved_bandwidth`: sum over all live reservations. -/
def get_total_reserved_bandwidth (rs : List Reservation) : ℚ :=
  (rs.map (fun r => r.bandwidthMbps)).sum

/-- The match test of `cancel_restoration` / `should_cancel_reservation`:
same user AND same player, where a `None`/empty side never matches. -/
def reservationMatches (userId player : Option String) (r : Reservation) : Bool :=
  let sameUser := truthy userId && truthy r.userId && (userId == r.userId)
  let samePlayer := truthy player && truthy r.player && (player == r.player)
  sameUser && samePlayer

/-- `cancel_restoration`: keep exactly the non-matching reservations
(cancelling the timers of the removed ones). -/
def cancel_restoration (userId player : Option String) (rs : List Reservation) :
    List Reservation :=
  rs.filter (fun r => !reservationMatches userId player r)

/-- `RestorationDelaysConfig` (seconds). -/
structure RestorationDelays where
  episodeEnd : ℤ
  movieEnd : ℤ
  deriving DecidableEq, Repr

/-- `DecisionEngine.calculate_restoration_delay`: episode delay for
episodes and for unknown media types, movie delay for movies
(the source lowercases the media type first). -/
def calculate_restoration_delay (delays : RestorationDelays) (mediaType : Option String) : ℤ :=
  let mt := (mediaType.getD "").map Char.toLower
  if mt == "episode" then delays.episodeEnd
  else if mt == "movie" then delays.movieEnd
  else delays.episodeEnd

/-- `schedule_restoration`: append a reservation with its own expiry
timer, unless the delay is ≤ 0. -/
def schedule_restoration (rs : List Reservation) (delaySeconds : ℤ)
    (bandwidthMbps : ℚ) (userId player : Option String) (rid : String) :
    List Reservation :=
  if delaySeconds ≤ 0 then rs
  else rs ++ [⟨rid, bandwidthMbps, userId, player⟩]

/-! ## The stream-side polling loop -/

/-- The shared monitor state the Plex loop reads and writes. -/
structure MonitorState where
  cachedStreams : List Sess
  reservations : List Reservation
  firstPoll : Bool
  plexConsecutiveFailures : ℕ
  plexUnreachableWarned : Bool
  deriving DecidableEq, Repr

/-- `PollingMonitor._plex_max_failures`. -/
def plexMaxFailures : ℕ := 6

/-- Events the stream loop emits through the notification service. -/
inductive Event where
  | serviceUnreachable
  | serviceRecovered
  | streamStarted (sessionId : String)
  | streamEnded (sessionId : Option String)
  deriving DecidableEq, Repr

/-- The truthy `session_id`s of a snapshot, as a set (first-occurrence
order, duplicates collapsed). -/
def sessionIdsOf (streams : List Sess) : List String :=
  ((streams.filterMap (fun s => s.sessionId)).filter (fun i => !i.isEmpty)).dedup

/-- `_handle_stopped_stream`: for a LAN stream with LAN-inclusion off,
only notify; otherwise create a reservation for the freed bandwidth
with the media-kind delay, then notify. -/
def handle_stopped_stream (cfg : EngineConfig) (delays : RestorationDelays)
    (rs : List Reservation) (s : Sess) : List Reservation × List Event :=
  if !cfg.includeLanStreams && s.isLan then (rs, [Event.streamEnded s.sessionId])
  else
    let delay := calculate_restoration_delay delays s.mediaType
    let freed := calculate_stream_bandwidth s cfg.streams.overheadPercent
    (schedule_restoration rs delay freed s.userId s.player
      ((s.userId.getD "None") ++ "_" ++ (s.player.getD "None")),
     [Event.streamEnded s.sessionId])

/-- Stopped-stream processing: for each session id in the old snapshot
but not the new one, handle the first old stream carrying that id. -/
def processStopped (cfg : EngineConfig) (delays : RestorationDelays)
    (oldStreams : List Sess) (stoppedIds : List String)
    (rs : List Reservation) : List Reservation × List Event :=
  stoppedIds.foldl
    (fun acc sid =>
      match oldStreams.find? (fun s => s.sessionId == some sid) with
      | some s =>
        let (rs1, ev) := handle_stopped_stream cfg delays acc.1 s
        (rs1, acc.2 ++ ev)
      | none => acc)
    (rs, [])

/-- Started-stream processing: for each new session id, cancel any
matching (user, player) reservation (when both are truthy) and emit a
start event. -/
def processStarted (newStreams : List Sess) (startedIds : List String)
    (rs : List Reservation) : List Reservation × List Event :=
  startedIds.foldl
    (fun acc sid =>
      match newStreams.find? (fun s => s.sessionId == some sid) with
      | some s =>
        let rs1 :=
          if truthy s.userId && truthy s.player then
            cancel_restoration s.userId s.player acc.1
          else acc.1
        (rs1, acc.2 ++ [Event.streamStarted sid])
      | none => acc)
    (rs, [])

/-- `_plex_poll_cycle`.  The fetch argument is the outcome of
`plex.get_active_streams()`: a new snapshot, or a transient error.
On error the failure counter is incremented, a single unreachable event
is emitted once the counter exceeds `plexMaxFailures`, and the rest of
the cycle is skipped with the cached snapshot left in place.  On success
the counter resets (emitting a recovery event if previously warned), the
snapshot is replaced, and — except on the first poll — set differences
on session ids drive stopped- and started-stream handling. -/
def plex_poll_cycle (cfg : EngineConfig) (delays : RestorationDelays)
    (st : MonitorState) (fetch : Except Unit (List Sess)) :
    MonitorState × List Event :=
  match fetch with
  | .error _ =>
    let failures := st.plexConsecutiveFailures + 1
    if failures ≤ plexMaxFailures then
      ({ st with plexConsecutiveFailures := failures }, [])
    else if !st.plexUnreachableWarned then
      ({ st with plexConsecutiveFailures := failures, plexUnreachableWarned := true },
       [Event.serviceUnreachable])
    else
      ({ st with plexConsecutiveFailures := failures }, [])
  | .ok newStreams =>
    let recoveryEvents := if st.plexUnreachableWarned then [Event.serviceRecovered] else []
    if st.firstPoll then
      ({ st with cachedStreams := newStreams, plexConsecutiveFailures := 0,
                 plexUnreachableWarned := false, firstPoll := false },
       recoveryEvents)
    else
      let oldIds := sessionIdsOf st.cachedStreams
      let newIds := sessionIdsOf newStreams
      let stoppedIds := oldIds.filter (fun i => !newIds.contains i)
      let startedIds := newIds.filter (fun i => !oldIds.contains i)
      let (rs1, endEvents) :=
        processStopped cfg delays st.cachedStreams stoppedIds st.reservations
      let (rs2, startEvents) := processStarted newStreams startedIds rs1
      ({ st with cachedStreams := newStreams, plexConsecutiveFailures := 0,
                 plexUnreachableWarned := false, reservations := rs2 },
       recoveryEvents ++ endEvents ++ startEvents)

/-- `n` consecutive stream-source failures starting from `st`,
accumulating the emitted events. -/
def runConsecutiveFailures (cfg : EngineConfig) (delays : RestorationDelays)
    (st : MonitorState) : ℕ → MonitorState × List Event
  | 0 => (st, [])
  | n + 1 =>
    ((plex_poll_cycle cfg delays (runConsecutiveFailures cfg delays st n).1 (.error ())).1,
     (runConsecutiveFailures cfg delays st n).2
       ++ (plex_poll_cycle cfg delays (runConsecutiveFailures cfg delays st n).1 (.error ())).2)

/-- The decisions computed by one download-loop tick: the allocator is
invoked on the cached stream snapshot, the reservation total and the
resolved temporary limits (`_download_poll_cycle`; the held-download
argument is not passed there and defaults to 0). -/
def download_poll_cycle_decisions (cfg : EngineConfig) (st : MonitorState)
    (stats : List ClientStat) (snmpDownloadSpeed : Option ℚ)
    (tl : Option TemporaryLimits) (nowAbs now : ℕ) (dc uc : String → ℕ) :
    List (String × Decision) :=
  let temps := get_active_temporary_limits tl nowAbs
  (calculate_throttle cfg st.cachedStreams stats snmpDownloadSpeed
    (get_total_reserved_bandwidth st.reservations) temps.1 temps.2 0 now dc uc).1

/-! ## Client adapters: original-limit recording and restoration -/

namespace Sabnzbd

/-- `SABnzbdClient._original_limit`. -/
structure State where
  originalLimit : Option ℚ
  deriving DecidableEq, Repr

/-- The recording step of `SABnzbdClient.get_stats`: the current limit
is stored as original on the first successful probe that reports a
positive limit. -/
def recordOriginal (s : State) (limitMbps : ℚ) : State :=
  if s.originalLimit = none ∧ limitMbps > 0 then ⟨some limitMbps⟩ else s

/-- `SABnzbdClient.restore_speed_limits` writes the speedlimit config
value `"0"` (SABnzbd's unlimited sentinel), unconditionally; the stored
original is not consulted.  The returned rational is the Mbps meaning of
the value written. -/
def restore_speed_limits_value (_s : State) : ℚ := 0

end Sabnzbd

namespace QBittorrent

/-- `QBittorrentClient._original_limits` (download, upload), Mbps. -/
structure State where
  originalLimits : Option (ℚ × ℚ)
  deriving DecidableEq, Repr

/-- A wire command posted to the qBittorrent API (limits in bytes/s;
the daemon's unlimited sentinel is 0). -/
inductive Command where
  | setDownloadLimitBytes (z : ℤ)
  | setUploadLimitBytes (z : ℤ)
  deriving DecidableEq, Repr

/-- The daemon value meaning "unlimited" for qBittorrent. -/
def unlimitedSentinel : ℤ := 0

/-- `QBittorrentClient.set_speed_limits`: each present Mbps argument is
converted with `int(mbps * 1_048_576 / 8)` and posted; an absent
argument posts nothing (the daemon limit is left unchanged). -/
def set_speed_limits (downloadLimit uploadLimit : Option ℚ) : List Command :=
  (match downloadLimit with
   | some d => [Command.setDownloadLimitBytes (pyInt (d * 1048576 / 8))]
   | none => []) ++
  (match uploadLimit with
   | some u => [Command.setUploadLimitBytes (pyInt (u * 1048576 / 8))]
   | none => [])

/-- The recording step of `QBittorrentClient.get_stats`: the current
limits are stored on the first successful probe. -/
def recordOriginal (s : State) (limits : ℚ × ℚ) : State :=
  if s.originalLimits = none then ⟨some limits⟩ else s

/-- `QBittorrentClient.restore_speed_limits`: with recorded originals,
re-set each side whose original was positive and pass `None` (leave
unchanged) for a side whose original was 0 (unlimited); with no
recorded originals, do nothing. -/
def restore_speed_limits (s : State) : List Command :=
  match s.originalLimits with
  | none => []
  | some (d, u) =>
    set_speed_limits (if d > 0 then some d else none) (if u > 0 then some u else none)

end QBittorrent

namespace Deluge

/-- `DelugeClient.set_speed_limits`, download side: the KB/s config
value written for a given Mbps limit; non-positive limits become −1,
Deluge's unlimited sentinel. -/
def set_download_value (downloadLimit : ℚ) : ℚ :=
  if downloadLimit > 0 then downloadLimit * 1000 / 8 else -1

end Deluge

namespace Transmission

/-- `TransmissionClient.set_speed_limits`, download side: the
(KB/s, enabled) session arguments; the limit is enabled only when the
converted value is positive, so non-positive limits disable the limit
(Transmission's unlimited state). -/
def set_download_arguments (downloadLimit : ℚ) : ℤ × Bool :=
  let kbps := pyInt (downloadLimit * 1000 / 8)
  (kbps, decide (kbps > 0))

end Transmission

/-- The base-class `restore_speed_limits` shared by the NZBGet,
Transmission and Deluge adapters: with recorded originals, write both
back as recorded; with none, do nothing.  Result: the (download, upload)
Mbps pair passed to `set_speed_limits`, or `none` when no call is made. -/
def baseRestoreSpeedLimits (originalLimits : Option (ℚ × ℚ)) : Option (ℚ × ℚ) :=
  originalLimits

/-! ## Supporting lemmas -/

theorem round2_le (q : ℚ) : round2 q ≤ q + 1 / 100 := by
  have h := abs_sub_round (q * 100)
  rw [abs_le] at h
  have h2 : ((round (q * 100) : ℚ)) ≤ q * 100 + 1 / 2 := by linarith [h.1]
  unfold round2
  rw [div_le_iff₀ (by norm_num : (0:ℚ) < 100)]
  linarith

theorem le_round2 (q : ℚ) : q - 1 / 100 ≤ round2 q := by
  have h := abs_sub_round (q * 100)
  rw [abs_le] at h
  have h2 : q * 100 - 1 / 2 ≤ ((round (q * 100) : ℚ)) := by linarith [h.2]
  unfold round2
  rw [le_div_iff₀ (by norm_num : (0:ℚ) < 100)]
  linarith

theorem sum_map_round2_le (l : List String) (f : String → ℚ) :
    (l.map (fun c => round2 (f c))).sum ≤ (l.map f).sum + l.length * (1 / 100) := by
  induction l with
  | nil => simp
  | cons a t ih =>
    simp only [List.map_cons, List.sum_cons, List.length_cons]
    have := round2_le (f a)
    push_cast
    linarith

theorem sum_map_constQ (l : List String) (v : ℚ) :
    (l.map (fun _ => v)).sum = l.length * v := by
  induction l with
  | nil => simp
  | cons a t ih => simp [ih]; ring

/-- Splitting a sum over an if-then-else on one distinguished element. -/
theorem sum_map_ite_single (l : List String) (a : String) (X Y : ℚ)
    (hnd : l.Nodup) (ha : a ∈ l) :
    (l.map (fun c => if c = a then X else Y)).sum
      = X + ((l.filter (fun c => decide (c ≠ a))).length : ℚ) * Y := by
  induction l with
  | nil => simp at ha
  | cons b t ih =>
    rcases List.nodup_cons.mp hnd with ⟨hbt, hnt⟩
    by_cases hba : b = a
    · subst hba
      have hconst : ∀ c ∈ t, (if c = b then X else Y) = Y := by
        intro c hc
        exact if_neg (fun h => hbt (by rwa [h] at hc))
      have hsum : (t.map (fun c => if c = b then X else Y)).sum = (t.map (fun _ => Y)).sum := by
        rw [List.map_congr_left hconst]
      have ht : t.filter (fun c => decide (c ≠ b)) = t := by
        apply List.filter_eq_self.mpr
        intro c hc
        simp only [ne_eq, decide_eq_true_eq]
        exact fun h => hbt (by rwa [h] at hc)
      have hfil : (b :: t).filter (fun c => decide (c ≠ b)) = t := by
        simp [List.filter_cons, ht]
        exact fun x hx hxb => hbt (by rwa [hxb] at hx)
      rw [hfil, List.map_cons, List.sum_cons, hsum, sum_map_constQ]
      simp
    · have hat : a ∈ t := by
        rcases List.mem_cons.mp ha with h | h
        · exact absurd h.symm hba
        · exact h
      have hfil : (b :: t).filter (fun c => decide (c ≠ a))
          = b :: t.filter (fun c => decide (c ≠ a)) := by
        simp [List.filter_cons, hba]
      rw [hfil, List.map_cons, List.sum_cons, ih hnt hat, List.length_cons]
      rw [if_neg hba]
      push_cast
      ring

/-- Splitting a sum over membership in the active list. -/
theorem sum_map_ite_mem (l act : List String) (F : String → ℚ) (Y : ℚ) :
    (l.map (fun c => if c ∈ act then F c else Y)).sum
      = ((l.filter (fun c => decide (c ∈ act))).map F).sum
        + ((l.filter (fun c => decide (c ∉ act))).length : ℚ) * Y := by
  induction l with
  | nil => simp
  | cons b t ih =>
    by_cases hb : b ∈ act
    · have h1 : (b :: t).filter (fun c => decide (c ∈ act))
          = b :: t.filter (fun c => decide (c ∈ act)) := by
        simp [List.filter_cons, hb]
      have h2 : (b :: t).filter (fun c => decide (c ∉ act))
          = t.filter (fun c => decide (c ∉ act)) := by
        simp [List.filter_cons, hb]
      rw [List.map_cons, List.sum_cons, h1, h2, List.map_cons, List.sum_cons, ih,
        if_pos hb]
      ring
    · have h1 : (b :: t).filter (fun c => decide (c ∈ act))
          = t.filter (fun c => decide (c ∈ act)) := by
        simp [List.filter_cons, hb]
      have h2 : (b :: t).filter (fun c => decide (c ∉ act))
          = b :: t.filter (fun c => decide (c ∉ act)) := by
        simp [List.filter_cons, hb]
      rw [List.map_cons, List.sum_cons, h1, h2, ih, List.length_cons, if_neg hb]
      push_cast
      ring

/-- With distinct ids, `find?` by a member's id returns that member. -/
theorem find_by_id_eq (stats : List ClientStat) (cl : ClientStat)
    (hids : (stats.map (fun c => c.id)).Nodup) (hmem : cl ∈ stats) :
    stats.find? (fun c => c.id == cl.id) = some cl := by
  induction stats with
  | nil => simp at hmem
  | cons hd tl ih =>
    simp only [List.map_cons, List.nodup_cons] at hids
    rcases List.mem_cons.mp hmem with h | h
    · subst h
      simp [List.find?_cons]
    · have hne : hd.id ≠ cl.id := by
        intro he
        exact hids.1 (he ▸ (List.mem_map.mpr ⟨cl, h, rfl⟩))
      have hb : (hd.id == cl.id) = false := beq_eq_false_iff_ne.mpr hne
      rw [List.find?_cons, hb]
      exact ih hids.2 h

/-- Looking up a key built by mapping over the key list. -/
theorem lookup_map_self {β : Type} (l : List String) (f : String → β) (x : String)
    (hx : x ∈ l) :
    (l.map (fun c => (c, f c))).lookup x = some (f x) := by
  induction l with
  | nil => simp at hx
  | cons b t ih =>
    rcases List.mem_cons.mp hx with h | h
    · subst h
      simp [List.lookup]
    · by_cases hxb : x = b
      · subst hxb
        simp [List.lookup]
      · have hb : (x == b) = false := beq_eq_false_iff_ne.mpr hxb
        simp only [List.map_cons, List.lookup, hb]
        exact ih h

/-- The value an inactive client receives when the active set is
non-empty: the safety-net share. -/
theorem dynamicAllocation_inactive (clients active : List String)
    (available sn : ℚ) (ps : List (String × ℚ)) (c : String)
    (hne : active ≠ []) (hc : c ∉ active) :
    dynamicAllocation clients available active ps sn c = available * sn := by
  match active with
  | [] => exact absurd rfl hne
  | [a] =>
    have hca : c ≠ a := by simpa using hc
    simp [dynamicAllocation, hca]
  | a :: b :: t =>
    simp only [dynamicAllocation]
    rw [if_neg hc]

theorem filter_mem_perm (l act : List String) (hl : l.Nodup) (hact : act.Nodup)
    (hsub : ∀ x ∈ act, x ∈ l) :
    List.Perm (l.filter (fun c => decide (c ∈ act))) act := by
  apply (List.perm_ext_iff_of_nodup (hl.filter _) hact).mpr
  intro x
  simp only [List.mem_filter, decide_eq_true_eq]
  exact ⟨fun h => h.2, fun h => ⟨hsub x h, h⟩⟩

/-- The dynamic allocation rules distribute exactly the available pool:
the per-client shares over the full client list always sum to
`available` (also when the single-active share has gone negative). -/
theorem sum_dynamicAllocation (clients active : List String) (available sn : ℚ)
    (ps : List (String × ℚ))
    (hne : clients ≠ []) (hnd : clients.Nodup) (hand : active.Nodup)
    (hsub : ∀ x ∈ active, x ∈ clients) :
    (clients.map (dynamicAllocation clients available active ps sn)).sum = available := by
  have hlen : (clients.length : ℚ) ≠ 0 := by
    have h0 : clients.length ≠ 0 := fun h => hne (List.eq_nil_of_length_eq_zero h)
    exact_mod_cast h0
  match active with
  | [] =>
    simp only [dynamicAllocation]
    rw [sum_map_constQ]
    field_simp
  | [a] =>
    have ha : a ∈ clients := hsub a (List.mem_singleton_self a)
    simp only [dynamicAllocation]
    rw [sum_map_ite_single clients a _ _ hnd ha]
    ring
  | a :: b :: t =>
    have hsub2 : ∀ x ∈ a :: b :: t, x ∈ clients := hsub
    have hperm : List.Perm (clients.filter (fun c => decide (c ∈ a :: b :: t))) (a :: b :: t) :=
      filter_mem_perm clients (a :: b :: t) hnd hand hsub2
    have hlen2 : ((t.length : ℚ) + 1 + 1) ≠ 0 := by positivity
    simp only [dynamicAllocation]
    rw [sum_map_ite_mem]
    rw [List.Perm.sum_eq (hperm.map _)]
    by_cases hconf :
        ((a :: b :: t).all fun c => (List.lookup (get_client_type c) ps).isSome) = true
    · rw [if_pos hconf]
      by_cases hraw :
          ((a :: b :: t).map
            (fun c => lookupD ps (get_client_type c) (100 / (clients.length : ℚ)))).sum = 0
      · rw [if_pos hraw]
        rw [sum_map_constQ]
        field_simp
        ring
      · rw [if_neg hraw]
        rw [List.sum_map_mul_left]
        have hdiv :
            ((a :: b :: t).map (fun c =>
              lookupD ps (get_client_type c) (100 / (clients.length : ℚ)) /
                ((a :: b :: t).map
                  (fun c => lookupD ps (get_client_type c) (100 / (clients.length : ℚ)))).sum)).sum
              = 1 := by
          simp only [div_eq_mul_inv]
          rw [List.sum_map_mul_right]
          exact mul_inv_cancel₀ hraw
        rw [hdiv]
        ring
    · rw [if_neg hconf]
      rw [sum_map_constQ]
      field_simp
      ring

/-- A client's activity classification is unchanged by one counter
update, unless it is below the threshold with a streak of exactly
`INACTIVE_BUFFER_INTERVALS - 2` (the buffer expires between the ticks). -/
theorem isActiveTick_next_stable (speed thr : ℚ) (c : ℕ)
    (h : speed > thr ∨ c ≠ 4) :
    isActiveTick speed thr (nextCounter speed thr c) = isActiveTick speed thr c := by
  unfold isActiveTick nextCounter INACTIVE_BUFFER_INTERVALS
  by_cases hs : speed > thr
  · simp [hs]
  · rcases h with h | h
    · exact absurd h hs
    · simp only [if_neg hs]
      exact decide_eq_decide.mpr (by omega)

theorem activeDownloading_stable (stats : List ClientStat) (thr : ℚ) (dc : String → ℕ)
    (hids : (stats.map (fun c => c.id)).Nodup)
    (h : ∀ cl ∈ stats, cl.downloadSpeed > thr ∨ dc cl.id ≠ 4) :
    activeDownloading stats thr (updatedDownCounters stats thr dc)
      = activeDownloading stats thr dc := by
  unfold activeDownloading
  congr 1
  apply List.filter_congr
  intro cl hcl
  have hfind : stats.find? (fun c => c.id == cl.id) = some cl :=
    find_by_id_eq stats cl hids hcl
  simp only [updatedDownCounters, hfind]
  exact isActiveTick_next_stable cl.downloadSpeed thr (dc cl.id) (h cl hcl)

theorem activeUploading_stable (stats : List ClientStat) (thr : ℚ) (uc : String → ℕ)
    (hids : (stats.map (fun c => c.id)).Nodup)
    (h : ∀ cl ∈ stats, cl.supportsUpload = true → (cl.uploadSpeed > thr ∨ uc cl.id ≠ 4)) :
    activeUploading stats thr (updatedUpCounters stats thr uc)
      = activeUploading stats thr uc := by
  unfold activeUploading
  congr 1
  apply List.filter_congr
  intro cl hcl
  by_cases hsu : cl.supportsUpload
  · have hclf : cl ∈ stats.filter (fun c => c.supportsUpload) :=
      List.mem_filter.mpr ⟨hcl, hsu⟩
    have hidsf : ((stats.filter (fun c => c.supportsUpload)).map (fun c => c.id)).Nodup :=
      List.Nodup.sublist ((List.filter_sublist stats).map (fun c => c.id)) hids
    have hfind := find_by_id_eq (stats.filter (fun c => c.supportsUpload)) cl hidsf hclf
    simp only [updatedUpCounters, hfind, hsu, Bool.true_and]
    exact isActiveTick_next_stable cl.uploadSpeed thr (uc cl.id) (h cl hcl hsu)
  · have hsu2 : cl.supportsUpload = false := Bool.eq_false_iff.mpr hsu
    simp [updatedUpCounters, hsu2]

theorem totalStreamBandwidth_nonneg (cfg : EngineConfig) (streams : List Sess) :
    0 ≤ totalStreamBandwidth cfg streams := by
  unfold totalStreamBandwidth
  split
  · exact le_refl 0
  · apply List.sum_nonneg
    intro x hx
    rcases List.mem_map.mp hx with ⟨s, _, rfl⟩
    exact le_max_left 0 _

theorem availableDownloadOf_le (cfg : EngineConfig) (streams : List Sess)
    (snmp : Option ℚ) (reservedDl : ℚ) (tempD : Option ℚ) (now : ℕ)
    (hcap : 0 ≤ effectiveDownloadLimit cfg tempD now)
    (hrdl : 0 ≤ reservedDl)
    (hsnmp : ∀ v, snmp = some v → 0 ≤ v) :
    availableDownloadOf cfg streams snmp reservedDl tempD now
      ≤ effectiveDownloadLimit cfg tempD now := by
  have hR : 0 ≤ (if cfg.streams.downloadReservePercent > 0
      then totalStreamBandwidth cfg streams * (cfg.streams.downloadReservePercent / 100)
      else 0) := by
    split
    · rename_i hp
      exact mul_nonneg (totalStreamBandwidth_nonneg cfg streams) (by linarith)
    · exact le_refl 0
  simp only [availableDownloadOf]
  set T := effectiveDownloadLimit cfg tempD now with hT
  set R := (if cfg.streams.downloadReservePercent > 0
      then totalStreamBandwidth cfg streams * (cfg.streams.downloadReservePercent / 100)
      else 0) with hRdef
  have hA0 : max 0 (T - (R + reservedDl)) ≤ T := max_le hcap (by linarith)
  match snmp with
  | none => exact max_le hcap hA0
  | some v =>
    have hv : 0 ≤ v := hsnmp v rfl
    have hA0n : 0 ≤ max 0 (T - (R + reservedDl)) := le_max_left 0 _
    have h1 : max 0 (max 0 (T - (R + reservedDl)) - v) ≤ T :=
      max_le hcap (by linarith)
    exact max_le hcap h1


/-! ## Claim theorems -/

/-- C2: For every admissible input (any enabled-client list with
distinct ids, any activity state, non-negative effective capacity, held
reservations and probe reading), the sum of the per-client download
limits produced by `calculate_throttle` is at most the effective
download capacity plus the 2-decimal rounding slack of 1/100 per
client. -/
theorem download_limits_sum_le_capacity
    (cfg : EngineConfig) (streams : List Sess) (stats : List ClientStat)
    (snmp : Option ℚ) (reserved : ℚ) (tempD tempU : Option ℚ) (reservedDl : ℚ)
    (now : ℕ) (dc uc : String → ℕ)
    (hids : (stats.map (fun c => c.id)).Nodup)
    (hcap : 0 ≤ effectiveDownloadLimit cfg tempD now)
    (hrdl : 0 ≤ reservedDl)
    (hsnmp : ∀ v, snmp = some v → 0 ≤ v) :
    (((calculate_throttle cfg streams stats snmp reserved tempD tempU reservedDl now dc uc).1).map
        (fun p => p.2.downloadLimit)).sum
      ≤ effectiveDownloadLimit cfg tempD now + stats.length * (1 / 100) := by
  have hproj : (((calculate_throttle cfg streams stats snmp reserved tempD tempU reservedDl now dc uc).1).map
      (fun p => p.2.downloadLimit))
      = (stats.map (fun c => c.id)).map
        (fun c => round2 (allocate_download_bandwidth (stats.map (fun cl => cl.id))
          (availableDownloadOf cfg streams snmp reservedDl tempD now)
          (activeDownloading stats
            (downloadThresholdOf stats (availableDownloadOf cfg streams snmp reservedDl tempD now)) dc)
          (downloadPercentsUsed cfg now) (safetyNetOf cfg) c)) := by
    simp only [calculate_throttle, List.map_map]
    rfl
  rw [hproj]
  by_cases hstats : stats = []
  · subst hstats
    simpa using hcap
  · have hne : stats.map (fun c => c.id) ≠ [] := by
      simpa [List.map_eq_nil_iff] using hstats
    have hemp : (stats.map (fun c => c.id)).isEmpty = false := by
      simpa [List.isEmpty_iff] using hne
    have hand : (activeDownloading stats
        (downloadThresholdOf stats (availableDownloadOf cfg streams snmp reservedDl tempD now))
        dc).Nodup := by
      unfold activeDownloading
      exact List.Nodup.sublist
        ((List.filter_sublist stats).map (fun c => c.id)) hids
    have hsub : ∀ x ∈ activeDownloading stats
        (downloadThresholdOf stats (availableDownloadOf cfg streams snmp reservedDl tempD now))
        dc, x ∈ stats.map (fun c => c.id) := by
      intro x hx
      unfold activeDownloading at hx
      exact ((List.filter_sublist stats).map (fun c => c.id)).subset hx
    have hsum := sum_dynamicAllocation (stats.map (fun c => c.id))
      (activeDownloading stats
        (downloadThresholdOf stats (availableDownloadOf cfg streams snmp reservedDl tempD now)) dc)
      (availableDownloadOf cfg streams snmp reservedDl tempD now)
      (safetyNetOf cfg) (downloadPercentsUsed cfg now) hne hids hand hsub
    have hle := availableDownloadOf_le cfg streams snmp reservedDl tempD now hcap hrdl hsnmp
    have hround := sum_map_round2_le (stats.map (fun c => c.id))
      (fun c => allocate_download_bandwidth (stats.map (fun cl => cl.id))
        (availableDownloadOf cfg streams snmp reservedDl tempD now)
        (activeDownloading stats
          (downloadThresholdOf stats (availableDownloadOf cfg streams snmp reservedDl tempD now)) dc)
        (downloadPercentsUsed cfg now) (safetyNetOf cfg) c)
    have halloc : (stats.map (fun c => c.id)).map
        (fun c => allocate_download_bandwidth (stats.map (fun cl => cl.id))
          (availableDownloadOf cfg streams snmp reservedDl tempD now)
          (activeDownloading stats
            (downloadThresholdOf stats (availableDownloadOf cfg streams snmp reservedDl tempD now)) dc)
          (downloadPercentsUsed cfg now) (safetyNetOf cfg) c)
        = (stats.map (fun c => c.id)).map
          (dynamicAllocation (stats.map (fun cl => cl.id))
            (availableDownloadOf cfg streams snmp reservedDl tempD now)
            (activeDownloading stats
              (downloadThresholdOf stats (availableDownloadOf cfg streams snmp reservedDl tempD now)) dc)
            (downloadPercentsUsed cfg now) (safetyNetOf cfg)) := by
      apply List.map_congr_left
      intro x _
      simp only [allocate_download_bandwidth, hemp, Bool.false_eq_true, if_false]
    calc ((stats.map (fun c => c.id)).map
            (fun c => round2 (allocate_download_bandwidth (stats.map (fun cl => cl.id))
              (availableDownloadOf cfg streams snmp reservedDl tempD now)
              (activeDownloading stats
                (downloadThresholdOf stats
                  (availableDownloadOf cfg streams snmp reservedDl tempD now)) dc)
              (downloadPercentsUsed cfg now) (safetyNetOf cfg) c))).sum
        ≤ ((stats.map (fun c => c.id)).map
            (fun c => allocate_download_bandwidth (stats.map (fun cl => cl.id))
              (availableDownloadOf cfg streams snmp reservedDl tempD now)
              (activeDownloading stats
                (downloadThresholdOf stats
                  (availableDownloadOf cfg streams snmp reservedDl tempD now)) dc)
              (downloadPercentsUsed cfg now) (safetyNetOf cfg) c)).sum
            + (stats.map (fun c => c.id)).length * (1 / 100) := hround
      _ = (availableDownloadOf cfg streams snmp reservedDl tempD now)
            + (stats.map (fun c => c.id)).length * (1 / 100) := by rw [halloc, hsum]
      _ ≤ effectiveDownloadLimit cfg tempD now + stats.length * (1 / 100) := by
            simp only [List.length_map]
            linarith

theorem pyInt_nonpos (q : ℚ) (hq : q ≤ 0) : pyInt q ≤ 0 := by
  unfold pyInt
  split
  · rename_i h
    calc ⌊q⌋ ≤ ⌊(0:ℚ)⌋ := Int.floor_le_floor hq
      _ = 0 := by norm_num
  · have h2 : (0:ℚ) ≤ -q := by linarith
    have := Int.floor_nonneg.mpr h2
    omega

/-- A disabled schedule (fixture). -/
def noSchedule : ScheduleConfig := ⟨false, 0, 0, 0, []⟩

/-- Fixture: 900/40 Mbps totals, 5% safety net, 100% overhead. -/
def wCfg : EngineConfig :=
  ⟨⟨900, [], 5, noSchedule⟩, ⟨40, [], noSchedule⟩, ⟨100, 0⟩, false⟩

/-- Fixture: one torrent and one usenet client. -/
def wStats : List ClientStat :=
  [⟨"qbittorrent_1", 500, 3, true⟩, ⟨"sabnzbd_1", 400, 0, false⟩]

/-- Witness for `download_limits_sum_le_capacity` at a concrete input. -/
theorem download_limits_sum_le_capacity_witness :
    ((wStats.map (fun c => c.id)).Nodup) ∧ (0 ≤ effectiveDownloadLimit wCfg none 0) ∧
    (((calculate_throttle wCfg [] wStats none 0 none none 0 0
        (fun _ => 0) (fun _ => 0)).1).map (fun p => p.2.downloadLimit)).sum
      ≤ effectiveDownloadLimit wCfg none 0 + wStats.length * (1 / 100) :=
  ⟨by decide,
   by norm_num [wCfg, effectiveDownloadLimit, is_within_schedule, noSchedule],
   download_limits_sum_le_capacity wCfg [] wStats none 0 none none 0 0
     (fun _ => 0) (fun _ => 0) (by decide)
     (by norm_num [wCfg, effectiveDownloadLimit, is_within_schedule, noSchedule])
     (by norm_num) (fun v h => Option.noConfusion h)⟩

/-- C5 (amended): an inactive client with at least one effectively
active peer receives exactly the safety-net fraction of the *available*
download capacity (the capacity left after stream reserves, held
reservations and the probe subtraction), rounded to 2 decimals — hence
at least that amount minus 1/100.  The claim's bound against the
*effective* capacity does not hold (see the counterexample). -/
theorem inactive_client_safety_net_of_available
    (cfg : EngineConfig) (streams : List Sess) (stats : List ClientStat)
    (snmp : Option ℚ) (reserved : ℚ) (tempD tempU : Option ℚ) (reservedDl : ℚ)
    (now : ℕ) (dc uc : String → ℕ) (c : String)
    (hmem : c ∈ stats.map (fun cl => cl.id))
    (hact : activeDownloading stats
      (downloadThresholdOf stats (availableDownloadOf cfg streams snmp reservedDl tempD now))
      dc ≠ [])
    (hc : c ∉ activeDownloading stats
      (downloadThresholdOf stats (availableDownloadOf cfg streams snmp reservedDl tempD now))
      dc) :
    (((calculate_throttle cfg streams stats snmp reserved tempD tempU reservedDl now dc uc).1).lookup c).map
        (fun d => d.downloadLimit)
      = some (round2 (availableDownloadOf cfg streams snmp reservedDl tempD now * safetyNetOf cfg)) ∧
    availableDownloadOf cfg streams snmp reservedDl tempD now * safetyNetOf cfg - 1 / 100
      ≤ round2 (availableDownloadOf cfg streams snmp reservedDl tempD now * safetyNetOf cfg) := by
  refine ⟨?_, le_round2 _⟩
  simp only [calculate_throttle]
  rw [lookup_map_self (stats.map (fun cl => cl.id)) _ c hmem]
  simp only [Option.map_some']
  have hne : ((stats.map (fun cl => cl.id)).isEmpty = true) → False := by
    intro h
    rw [List.isEmpty_iff] at h
    exact (List.ne_nil_of_mem hmem) h
  congr 1
  simp only [allocate_download_bandwidth, if_neg hne]
  rw [dynamicAllocation_inactive _ _ _ _ _ c hact hc]

/-- Fixture for the C5 counterexample: 100 Mbps total, a probe reading
of 60 Mbps leaves 40 Mbps available; client `a` is active, `b` has an
expired streak. -/
def c5Cfg : EngineConfig :=
  ⟨⟨100, [], 5, noSchedule⟩, ⟨40, [], noSchedule⟩, ⟨100, 0⟩, false⟩

def c5Stats : List ClientStat := [⟨"a", 10, 0, false⟩, ⟨"b", 0, 0, false⟩]

def c5dc : String → ℕ := fun n => if n = "b" then 6 else 0

set_option maxHeartbeats 2000000 in
/-- C5 counterexample: with effective capacity 100 and safety net 5%,
the claim demands the inactive client `b` at least 5 Mbps (within
2 × 0.01 rounding); the engine assigns it 2 Mbps (5% of the 40 Mbps
that remain after the 60 Mbps probe subtraction), while `a` is its
effectively active peer. -/
theorem inactive_client_safety_net_counterexample :
    (calculate_throttle c5Cfg [] c5Stats (some 60) 0 none none 0 0 c5dc
        (fun _ => 0)).1 = [("a", ⟨38, 0⟩), ("b", ⟨2, 0⟩)] ∧
    activeDownloading c5Stats
      (downloadThresholdOf c5Stats (availableDownloadOf c5Cfg [] (some 60) 0 none 0))
      c5dc = ["a"] ∧
    effectiveDownloadLimit c5Cfg none 0 = 100 ∧
    (2 : ℚ) < 5 / 100 * effectiveDownloadLimit c5Cfg none 0 - 2 * (1 / 100) := by
  have hfb : List.filter (fun c => !decide (c = "a")) ["b"] = ["b"] := by decide
  refine ⟨?_, ?_, ?_, ?_⟩
  · norm_num [calculate_throttle, availableDownloadOf, availableUploadOf, effectiveDownloadLimit,
      effectiveUploadLimit, is_within_schedule, totalStreamBandwidth, downloadThresholdOf,
      uploadThresholdOf, activeDownloading, activeUploading, uploadClientsOf, isActiveTick,
      INACTIVE_BUFFER_INTERVALS, allocate_download_bandwidth, dynamicAllocation, uploadLimitsFun,
      downloadPercentsUsed, uploadPercentsUsed, safetyNetOf, round2, round_eq, c5Cfg, c5Stats, c5dc,
      noSchedule, get_client_type, lookupD]
    rw [hfb, if_neg (by decide : ¬("b" : String) = "a")]
    norm_num [Int.floor_eq_iff]
  · norm_num [activeDownloading, availableDownloadOf, effectiveDownloadLimit, is_within_schedule,
      totalStreamBandwidth, downloadThresholdOf, isActiveTick, INACTIVE_BUFFER_INTERVALS,
      c5Cfg, c5Stats, c5dc, noSchedule]
  · norm_num [effectiveDownloadLimit, is_within_schedule, c5Cfg, noSchedule]
  · norm_num [effectiveDownloadLimit, is_within_schedule, c5Cfg, noSchedule]

/-- Witness for `inactive_client_safety_net_of_available` at the
concrete C5 fixture. -/
theorem inactive_client_safety_net_witness :
    ("b" ∈ c5Stats.map (fun cl => cl.id)) ∧
    ((((calculate_throttle c5Cfg [] c5Stats (some 60) 0 none none 0 0 c5dc
        (fun _ => 0)).1).lookup "b").map (fun d => d.downloadLimit)
      = some (round2 (availableDownloadOf c5Cfg [] (some 60) 0 none 0 * safetyNetOf c5Cfg)) ∧
    availableDownloadOf c5Cfg [] (some 60) 0 none 0 * safetyNetOf c5Cfg - 1 / 100
      ≤ round2 (availableDownloadOf c5Cfg [] (some 60) 0 none 0 * safetyNetOf c5Cfg)) := by
  have heval : activeDownloading c5Stats
      (downloadThresholdOf c5Stats (availableDownloadOf c5Cfg [] (some 60) 0 none 0))
      c5dc = ["a"] := by
    norm_num [activeDownloading, availableDownloadOf, effectiveDownloadLimit, is_within_schedule,
      totalStreamBandwidth, downloadThresholdOf, isActiveTick, INACTIVE_BUFFER_INTERVALS,
      c5Cfg, c5Stats, c5dc, noSchedule]
  refine ⟨by decide, ?_⟩
  exact inactive_client_safety_net_of_available c5Cfg [] c5Stats (some 60) 0 none none 0 0 c5dc
    (fun _ => 0) "b" (by decide) (by rw [heval]; decide) (by rw [heval]; decide)

/-- C10 (amended): in the single-active branch the active client's
share is exactly `available × (1 − |I| × safety_net)` with no clamping,
so it is strictly negative whenever `|I| × safety_net > 1` and capacity
is positive.  The Deluge and Transmission adapters translate any
non-positive limit into their daemons' unlimited sentinels (−1 KB/s
resp. a disabled limit); qBittorrent and SABnzbd forward the converted
negative value unchanged. -/
theorem single_active_share_unclamped (allClients : List String) (a : String)
    (available sn : ℚ) (ps : List (String × ℚ)) :
    dynamicAllocation allClients available [a] ps sn a
      = available * (1 - sn * (allClients.filter (fun c => decide (c ≠ a))).length) ∧
    (0 < available → 1 < sn * (allClients.filter (fun c => decide (c ≠ a))).length →
      dynamicAllocation allClients available [a] ps sn a < 0) ∧
    (∀ q : ℚ, q ≤ 0 → Deluge.set_download_value q = -1) ∧
    (∀ q : ℚ, q ≤ 0 → (Transmission.set_download_arguments q).2 = false) := by
  have hval : dynamicAllocation allClients available [a] ps sn a
      = available * (1 - sn * (allClients.filter (fun c => decide (c ≠ a))).length) := by
    simp [dynamicAllocation]
  refine ⟨hval, ?_, ?_, ?_⟩
  · intro hav hk
    rw [hval]
    exact mul_neg_of_pos_of_neg hav (by linarith)
  · intro q hq
    simp only [Deluge.set_download_value]
    rw [if_neg (not_lt.mpr hq)]
  · intro q hq
    have hq8 : q * 1000 / 8 ≤ 0 := by linarith
    have hpy : pyInt (q * 1000 / 8) ≤ 0 := pyInt_nonpos _ hq8
    simp only [Transmission.set_download_arguments]
    exact decide_eq_false_iff_not.mpr (not_lt.mpr hpy)

/-- Fixture: 22 clients for the C10 counterexample. -/
def c10Clients : List String :=
  ["c0", "c1", "c2", "c3", "c4", "c5", "c6", "c7", "c8", "c9", "c10",
   "c11", "c12", "c13", "c14", "c15", "c16", "c17", "c18", "c19", "c20", "c21"]

/-- C10 counterexample to the adapter clause: with 22 clients, a 5%
safety net and 100 Mbps available, the single active client is assigned
−5 Mbps; the qBittorrent adapter forwards that as −655360 bytes/s,
which is not the daemon's unlimited sentinel (0). -/
theorem negative_limit_not_unlimited_counterexample :
    dynamicAllocation c10Clients 100 ["c0"] [] (5 / 100) "c0" = -5 ∧
    QBittorrent.set_speed_limits (some (-5)) none
      = [QBittorrent.Command.setDownloadLimitBytes (-655360)] ∧
    (-655360 : ℤ) ≠ QBittorrent.unlimitedSentinel := by
  have hfil : (c10Clients.filter (fun c => !decide (c = "c0"))).length = 21 := by decide
  refine ⟨?_, ?_, by decide⟩
  · norm_num [dynamicAllocation, hfil]
  · norm_num [QBittorrent.set_speed_limits, pyInt, QBittorrent.unlimitedSentinel,
      Int.floor_intCast, show (-5 : ℚ) * 1048576 / 8 = -655360 by norm_num]

/-- Witness for `single_active_share_unclamped` at a concrete input. -/
theorem single_active_share_unclamped_witness :
    (0 < (100 : ℚ)) ∧
    (1 < (1 / 2 : ℚ) * ((["a", "b", "c", "d"].filter (fun c => decide (c ≠ "a"))).length : ℚ)) ∧
    dynamicAllocation ["a", "b", "c", "d"] 100 ["a"] [] (1 / 2) "a" < 0 := by
  have hf : ((["a", "b", "c", "d"].filter (fun c => decide (c ≠ "a"))).length) = 3 := by decide
  refine ⟨by norm_num, by rw [hf]; norm_num,
    (single_active_share_unclamped ["a", "b", "c", "d"] "a" 100 (1 / 2) []).2.1
      (by norm_num) (by rw [hf]; norm_num)⟩

/-- C3 (amended): when the total stream cost exceeds the effective
upload total and at least one upload-capable client exists, the
available upload pool is replaced by 1% of the upload total per
upload-capable client, and the normal dynamic upload allocator then
distributes that pool.  In particular, when every upload-capable client
is classified standby, each receives exactly 1% of the upload total
(rounded); with mixed activity classes the limits deviate from 1% each
(see the counterexample). -/
theorem emergency_upload_pool (cfg : EngineConfig) (streams : List Sess)
    (stats : List ClientStat) (reserved : ℚ) (tempU : Option ℚ) (now : ℕ)
    (hex : totalStreamBandwidth cfg streams > effectiveUploadLimit cfg tempU now)
    (hne : uploadClientsOf stats ≠ []) :
    availableUploadOf cfg streams stats reserved tempU now
      = effectiveUploadLimit cfg tempU now * (1 / 100) * (uploadClientsOf stats).length ∧
    ∀ (snmp : Option ℚ) (tempD : Option ℚ) (reservedDl : ℚ) (dc uc : String → ℕ),
      (∀ cl ∈ stats, cl.supportsUpload = true →
        isActiveTick cl.uploadSpeed
          (uploadThresholdOf stats (availableUploadOf cfg streams stats reserved tempU now))
          (uc cl.id) = false) →
      ∀ c ∈ uploadClientsOf stats,
        (((calculate_throttle cfg streams stats snmp reserved tempD tempU reservedDl now
            dc uc).1).lookup c).map (fun d => d.uploadLimit)
          = some (round2 (effectiveUploadLimit cfg tempU now * (1 / 100))) := by
  have hueF : (uploadClientsOf stats).isEmpty = false := by
    simpa [List.isEmpty_iff] using hne
  have hcond : (decide (totalStreamBandwidth cfg streams
      > effectiveUploadLimit cfg tempU now) && !(uploadClientsOf stats).isEmpty) = true := by
    simp [hex, hueF]
  have hpool : availableUploadOf cfg streams stats reserved tempU now
      = effectiveUploadLimit cfg tempU now * (1 / 100) * (uploadClientsOf stats).length := by
    simp only [availableUploadOf]
    simp [hex, hueF]
  refine ⟨hpool, ?_⟩
  intro snmp tempD reservedDl dc uc hstandby c hc
  have hmem : c ∈ stats.map (fun cl => cl.id) := by
    unfold uploadClientsOf at hc
    rcases List.mem_map.mp hc with ⟨cl, hcl, rfl⟩
    exact List.mem_map.mpr ⟨cl, (List.mem_filter.mp hcl).1, rfl⟩
  have hM : ((uploadClientsOf stats).length : ℚ) ≠ 0 := by
    have h0 : (uploadClientsOf stats).length ≠ 0 :=
      fun h => hne (List.eq_nil_of_length_eq_zero h)
    exact_mod_cast h0
  have hau : activeUploading stats
      (uploadThresholdOf stats (availableUploadOf cfg streams stats reserved tempU now)) uc
      = [] := by
    unfold activeUploading
    have : stats.filter (fun cl => cl.supportsUpload && isActiveTick cl.uploadSpeed
        (uploadThresholdOf stats (availableUploadOf cfg streams stats reserved tempU now))
        (uc cl.id)) = [] := by
      apply List.filter_eq_nil_iff.mpr
      intro cl hcl
      by_cases hsu : cl.supportsUpload
      · simp [hsu, hstandby cl hcl hsu]
      · simp [Bool.eq_false_iff.mpr hsu]
    rw [this, List.map_nil]
  simp only [calculate_throttle]
  rw [lookup_map_self (stats.map (fun cl => cl.id)) _ c hmem]
  simp only [Option.map_some']
  congr 1
  rw [hau]
  simp only [uploadLimitsFun, hueF, Bool.false_eq_true, if_false]
  rw [if_pos hc]
  simp only [dynamicAllocation]
  rw [hpool]
  congr 1
  exact mul_div_cancel_right₀ _ hM

/-- Fixture for C3: upload total 100, one 150 Mbps WAN stream with 0%
overhead (cost 150 > 100 → emergency); two upload-capable clients,
`b` with an expired upload streak. -/
def c3Cfg : EngineConfig :=
  ⟨⟨900, [], 5, noSchedule⟩, ⟨100, [], noSchedule⟩, ⟨0, 0⟩, false⟩

def c3Stream : Sess := ⟨some "x", some "alice", some "roku", some "movie", none, 150, false⟩

def c3Stats : List ClientStat := [⟨"a", 0, 0, true⟩, ⟨"b", 0, 0, true⟩]

def c3uc : String → ℕ := fun n => if n = "b" then 6 else 0

set_option maxHeartbeats 2000000 in
/-- C3 counterexample: in emergency mode with one active and one
inactive upload client, the allocator gives the active client 1.9% and
the inactive client 0.1% of the upload total — not exactly 1% each as
the claim states. -/
theorem emergency_upload_counterexample :
    (calculate_throttle c3Cfg [c3Stream] c3Stats none 0 none none 0 0 (fun _ => 0) c3uc).1
      = [("a", ⟨450, 19 / 10⟩), ("b", ⟨450, 1 / 10⟩)] ∧
    totalStreamBandwidth c3Cfg [c3Stream] > effectiveUploadLimit c3Cfg none 0 ∧
    (19 / 10 : ℚ) ≠ effectiveUploadLimit c3Cfg none 0 * (1 / 100) := by
  have hab : (("a" : String) = "b") = False := by simp
  have hba : (("b" : String) = "a") = False := by simp
  refine ⟨?_, ?_, ?_⟩
  · norm_num [calculate_throttle, availableDownloadOf, availableUploadOf, effectiveDownloadLimit,
      effectiveUploadLimit, is_within_schedule, totalStreamBandwidth, filter_streams_for_bandwidth,
      calculate_stream_bandwidth, downloadThresholdOf, uploadThresholdOf, activeDownloading,
      activeUploading, uploadClientsOf, isActiveTick, INACTIVE_BUFFER_INTERVALS,
      allocate_download_bandwidth, dynamicAllocation, uploadLimitsFun, downloadPercentsUsed,
      uploadPercentsUsed, safetyNetOf, round2, round_eq, c3Cfg, c3Stream, c3Stats, c3uc,
      noSchedule, get_client_type, lookupD, Int.floor_eq_iff, List.filter_cons, List.filter_nil,
      hab, hba]
  · norm_num [totalStreamBandwidth, filter_streams_for_bandwidth, calculate_stream_bandwidth,
      effectiveUploadLimit, is_within_schedule, c3Cfg, c3Stream, noSchedule]
  · norm_num [effectiveUploadLimit, is_within_schedule, c3Cfg, noSchedule]

/-- Witness for `emergency_upload_pool`: with both upload clients in
standby, each receives exactly 1% of the upload total. -/
theorem emergency_upload_pool_witness :
    (totalStreamBandwidth c3Cfg [c3Stream] > effectiveUploadLimit c3Cfg none 0) ∧
    (uploadClientsOf c3Stats ≠ []) ∧
    ("a" ∈ uploadClientsOf c3Stats) ∧
    ((((calculate_throttle c3Cfg [c3Stream] c3Stats none 0 none none 0 0 (fun _ => 0)
        (fun _ => 6)).1).lookup "a").map (fun d => d.uploadLimit)
      = some (round2 (effectiveUploadLimit c3Cfg none 0 * (1 / 100)))) := by
  have hex : totalStreamBandwidth c3Cfg [c3Stream] > effectiveUploadLimit c3Cfg none 0 := by
    norm_num [totalStreamBandwidth, filter_streams_for_bandwidth, calculate_stream_bandwidth,
      effectiveUploadLimit, is_within_schedule, c3Cfg, c3Stream, noSchedule]
  have hstandby : ∀ cl ∈ c3Stats, cl.supportsUpload = true →
      isActiveTick cl.uploadSpeed
        (uploadThresholdOf c3Stats (availableUploadOf c3Cfg [c3Stream] c3Stats 0 none 0))
        ((fun _ => 6) cl.id) = false := by
    intro cl hcl _
    have hthr : 0 < uploadThresholdOf c3Stats (availableUploadOf c3Cfg [c3Stream] c3Stats 0 none 0) := by
      norm_num [uploadThresholdOf, availableUploadOf, effectiveUploadLimit, is_within_schedule,
        totalStreamBandwidth, filter_streams_for_bandwidth, calculate_stream_bandwidth,
        uploadClientsOf, c3Cfg, c3Stream, c3Stats, noSchedule]
    have hsp : cl.uploadSpeed = 0 := by
      fin_cases hcl <;> rfl
    simp [isActiveTick, INACTIVE_BUFFER_INTERVALS, hsp, not_lt.mpr (le_of_lt hthr)]
  exact ⟨hex, by decide, by decide,
    (emergency_upload_pool c3Cfg [c3Stream] c3Stats 0 none 0 hex (by decide)).2
      none none 0 (fun _ => 0) (fun _ => 6) hstandby "a" (by decide)⟩

/-- C4 (amended): two consecutive ticks with identical inputs produce
identical per-client decisions provided no below-threshold client
enters the first tick with an inactive streak of exactly 4
(buffer 6 − 2): such a client is classified active on the first tick
but inactive on the second, and the decisions change (see the
counterexample). -/
theorem identical_inputs_identical_decisions
    (cfg : EngineConfig) (streams : List Sess) (stats : List ClientStat)
    (snmp : Option ℚ) (reserved : ℚ) (tempD tempU : Option ℚ) (reservedDl : ℚ)
    (now : ℕ) (dc uc : String → ℕ)
    (hids : (stats.map (fun c => c.id)).Nodup)
    (hdown : ∀ cl ∈ stats, cl.downloadSpeed >
        downloadThresholdOf stats (availableDownloadOf cfg streams snmp reservedDl tempD now)
      ∨ dc cl.id ≠ 4)
    (hup : ∀ cl ∈ stats, cl.supportsUpload = true →
        (cl.uploadSpeed >
          uploadThresholdOf stats (availableUploadOf cfg streams stats reserved tempU now)
         ∨ uc cl.id ≠ 4)) :
    (calculate_throttle cfg streams stats snmp reserved tempD tempU reservedDl now
      (calculate_throttle cfg streams stats snmp reserved tempD tempU reservedDl now dc uc).2.1
      (calculate_throttle cfg streams stats snmp reserved tempD tempU reservedDl now dc uc).2.2).1
    = (calculate_throttle cfg streams stats snmp reserved tempD tempU reservedDl now dc uc).1 := by
  simp only [calculate_throttle]
  rw [activeDownloading_stable stats _ dc hids hdown]
  by_cases hue : (uploadClientsOf stats).isEmpty
  · simp [hue]
  · have hueF : (uploadClientsOf stats).isEmpty = false := Bool.eq_false_iff.mpr hue
    simp only [hueF, Bool.false_eq_true, if_false]
    rw [activeUploading_stable stats _ uc hids hup]

/-- Fixture for C4: two non-upload clients below threshold, client `a`
entering the tick with a streak of exactly 4. -/
def c4Cfg : EngineConfig :=
  ⟨⟨100, [], 5, noSchedule⟩, ⟨40, [], noSchedule⟩, ⟨100, 0⟩, false⟩

def c4Stats : List ClientStat := [⟨"a", 0, 0, false⟩, ⟨"b", 0, 0, false⟩]

def c4dc : String → ℕ := fun n => if n = "a" then 4 else 0

set_option maxHeartbeats 2000000 in
/-- C4 counterexample: with identical inputs on both ticks, client `a`
(streak 4, below threshold) is still inside the buffer on the first
tick (decisions 50/50) but crosses it on the second (decisions 5/95):
the two consecutive ticks produce different decisions. -/
theorem identical_inputs_different_decisions_counterexample :
    (calculate_throttle c4Cfg [] c4Stats none 0 none none 0 0
      (calculate_throttle c4Cfg [] c4Stats none 0 none none 0 0 c4dc (fun _ => 0)).2.1
      (calculate_throttle c4Cfg [] c4Stats none 0 none none 0 0 c4dc (fun _ => 0)).2.2).1
    ≠ (calculate_throttle c4Cfg [] c4Stats none 0 none none 0 0 c4dc (fun _ => 0)).1 := by
  have hab : (("a" : String) = "b") = False := by simp
  have hba : (("b" : String) = "a") = False := by simp
  have h1 : (calculate_throttle c4Cfg [] c4Stats none 0 none none 0 0 c4dc (fun _ => 0)).1
      = [("a", ⟨50, 0⟩), ("b", ⟨50, 0⟩)] := by
    norm_num [hab, hba, calculate_throttle, availableDownloadOf, availableUploadOf, effectiveDownloadLimit,
      effectiveUploadLimit, is_within_schedule, totalStreamBandwidth, downloadThresholdOf,
      uploadThresholdOf, activeDownloading, activeUploading, uploadClientsOf, isActiveTick,
      INACTIVE_BUFFER_INTERVALS, allocate_download_bandwidth, dynamicAllocation, uploadLimitsFun,
      downloadPercentsUsed, uploadPercentsUsed, safetyNetOf, round2, round_eq, c4Cfg, c4Stats,
      c4dc, noSchedule, get_client_type, lookupD, Int.floor_eq_iff, List.filter_cons,
      List.filter_nil]
  have h2 : (calculate_throttle c4Cfg [] c4Stats none 0 none none 0 0
      (calculate_throttle c4Cfg [] c4Stats none 0 none none 0 0 c4dc (fun _ => 0)).2.1
      (calculate_throttle c4Cfg [] c4Stats none 0 none none 0 0 c4dc (fun _ => 0)).2.2).1
      = [("a", ⟨5, 0⟩), ("b", ⟨95, 0⟩)] := by
    have beq1 : (("a" : String) == "b") = false := by simp
    have beq2 : (("b" : String) == "a") = false := by simp
    have beq3 : (("a" : String) == "a") = true := by simp
    have beq4 : (("b" : String) == "b") = true := by simp
    norm_num [hab, hba, beq1, beq2, beq3, beq4, calculate_throttle, availableDownloadOf, availableUploadOf, effectiveDownloadLimit,
      effectiveUploadLimit, is_within_schedule, totalStreamBandwidth, downloadThresholdOf,
      uploadThresholdOf, activeDownloading, activeUploading, uploadClientsOf, isActiveTick,
      INACTIVE_BUFFER_INTERVALS, allocate_download_bandwidth, dynamicAllocation, uploadLimitsFun,
      downloadPercentsUsed, uploadPercentsUsed, safetyNetOf, round2, round_eq, c4Cfg, c4Stats,
      c4dc, noSchedule, get_client_type, lookupD, Int.floor_eq_iff, updatedDownCounters,
      updatedUpCounters, nextCounter, List.filter_cons, List.filter_nil, List.find?_cons]
  rw [h1, h2]
  simp only [ne_eq, List.cons.injEq, Prod.mk.injEq, Decision.mk.injEq]
  norm_num

/-- Witness for `identical_inputs_identical_decisions` at a concrete
input (both streaks 0, both clients below threshold). -/
theorem identical_inputs_identical_decisions_witness :
    ((c4Stats.map (fun c => c.id)).Nodup) ∧
    (calculate_throttle c4Cfg [] c4Stats none 0 none none 0 0
      (calculate_throttle c4Cfg [] c4Stats none 0 none none 0 0
        (fun _ => 0) (fun _ => 0)).2.1
      (calculate_throttle c4Cfg [] c4Stats none 0 none none 0 0
        (fun _ => 0) (fun _ => 0)).2.2).1
    = (calculate_throttle c4Cfg [] c4Stats none 0 none none 0 0
        (fun _ => 0) (fun _ => 0)).1 :=
  ⟨by decide,
   identical_inputs_identical_decisions c4Cfg [] c4Stats none 0 none none 0 0
     (fun _ => 0) (fun _ => 0) (by decide)
     (fun cl _ => Or.inr (by simp))
     (fun cl _ _ => Or.inr (by simp))⟩

/-- C1: a stream-loop tick whose `list_active` call fails leaves the
cached snapshot and the reservation table unchanged, performs no
stopped- or started-stream reconciliation (emitting at most a
service-unreachable event), and the subsequent download-loop tick
computes its decisions from the same cached snapshot as it would have
before the failing tick. -/
theorem plex_failure_preserves_snapshot
    (cfg : EngineConfig) (delays : RestorationDelays) (st : MonitorState)
    (stats : List ClientStat) (snmp : Option ℚ) (tl : Option TemporaryLimits)
    (nowAbs now : ℕ) (dc uc : String → ℕ) :
    ((plex_poll_cycle cfg delays st (.error ())).1.cachedStreams = st.cachedStreams) ∧
    ((plex_poll_cycle cfg delays st (.error ())).1.reservations = st.reservations) ∧
    (∀ sid, Event.streamStarted sid ∉ (plex_poll_cycle cfg delays st (.error ())).2) ∧
    (∀ sid, Event.streamEnded sid ∉ (plex_poll_cycle cfg delays st (.error ())).2) ∧
    download_poll_cycle_decisions cfg (plex_poll_cycle cfg delays st (.error ())).1
        stats snmp tl nowAbs now dc uc
      = download_poll_cycle_decisions cfg st stats snmp tl nowAbs now dc uc := by
  simp only [plex_poll_cycle]
  split_ifs with h1 h2
  · exact ⟨rfl, rfl, by simp, by simp, rfl⟩
  · exact ⟨rfl, rfl, by simp, by simp, rfl⟩
  · exact ⟨rfl, rfl, by simp, by simp, rfl⟩

/-- Closed form of the stream-loop error branch: the counter
increments, the cached snapshot and reservations stay, the warned flag
latches once the counter exceeds the maximum, and a single unreachable
event is emitted exactly at that latch. -/
theorem plex_poll_cycle_error_eq (cfg : EngineConfig) (delays : RestorationDelays)
    (st : MonitorState) :
    plex_poll_cycle cfg delays st (.error ())
      = (MonitorState.mk st.cachedStreams st.reservations st.firstPoll
           (st.plexConsecutiveFailures + 1)
           (st.plexUnreachableWarned
             || decide (plexMaxFailures < st.plexConsecutiveFailures + 1)),
         if plexMaxFailures < st.plexConsecutiveFailures + 1
              ∧ st.plexUnreachableWarned = false
         then [Event.serviceUnreachable] else []) := by
  cases st with
  | mk cs rs fp f w =>
    unfold plex_poll_cycle
    by_cases h1 : f + 1 ≤ plexMaxFailures
    · have hlt : ¬ plexMaxFailures < f + 1 := not_lt.mpr h1
      simp [h1, hlt]
    · have hlt : plexMaxFailures < f + 1 := not_le.mp h1
      cases w
      · simp [h1, hlt]
      · simp [h1, hlt]

theorem runConsecutiveFailures_succ (cfg : EngineConfig) (delays : RestorationDelays)
    (st : MonitorState) (n : ℕ) :
    runConsecutiveFailures cfg delays st (n + 1)
      = ((plex_poll_cycle cfg delays (runConsecutiveFailures cfg delays st n).1 (.error ())).1,
         (runConsecutiveFailures cfg delays st n).2
           ++ (plex_poll_cycle cfg delays
                (runConsecutiveFailures cfg delays st n).1 (.error ())).2) := rfl

/-- The state and event profile of an uninterrupted failure run from a
healthy baseline: after `n` failing ticks the counter is `n`, the
warned flag is set iff `n ≥ 7`, and exactly one unreachable event has
been emitted iff `n ≥ 7`. -/
theorem runConsecutiveFailures_profile (cfg : EngineConfig) (delays : RestorationDelays)
    (st : MonitorState) (h0 : st.plexConsecutiveFailures = 0)
    (hw : st.plexUnreachableWarned = false) (n : ℕ) :
    (runConsecutiveFailures cfg delays st n).1.plexConsecutiveFailures = n ∧
    (runConsecutiveFailures cfg delays st n).1.plexUnreachableWarned = decide (7 ≤ n) ∧
    ((runConsecutiveFailures cfg delays st n).2).count Event.serviceUnreachable
      = if 7 ≤ n then 1 else 0 := by
  induction n with
  | zero => simp [runConsecutiveFailures, h0, hw]
  | succ n ih =>
    obtain ⟨hf, hwarn, hcount⟩ := ih
    simp only [runConsecutiveFailures_succ, plex_poll_cycle_error_eq, hf, hwarn]
    refine ⟨trivial, ?_, ?_⟩
    · show (decide (7 ≤ n) || decide (plexMaxFailures < n + 1)) = decide (7 ≤ n + 1)
      have hiff : (7 ≤ n ∨ plexMaxFailures < n + 1) ↔ (7 ≤ n + 1) := by
        unfold plexMaxFailures
        omega
      calc (decide (7 ≤ n) || decide (plexMaxFailures < n + 1))
          = decide (7 ≤ n ∨ plexMaxFailures < n + 1) := by simp
        _ = decide (7 ≤ n + 1) := decide_eq_decide.mpr hiff
    · rw [List.count_append, hcount]
      by_cases h7 : 7 ≤ n
      · have hF : ¬ (plexMaxFailures < n + 1 ∧ (decide (7 ≤ n)) = false) := by
          simp [decide_eq_true h7]
        rw [if_pos h7, if_neg hF, if_pos (show 7 ≤ n + 1 by omega)]
        simp
      · by_cases h6 : plexMaxFailures < n + 1
        · have hT : plexMaxFailures < n + 1 ∧ (decide (7 ≤ n)) = false :=
            ⟨h6, decide_eq_false h7⟩
          have h71 : 7 ≤ n + 1 := by
            unfold plexMaxFailures at h6
            omega
          rw [if_neg h7, if_pos hT, if_pos h71]
          decide
        · have hF : ¬ (plexMaxFailures < n + 1 ∧ (decide (7 ≤ n)) = false) :=
            fun h => h6 h.1
          have h71 : ¬ 7 ≤ n + 1 := by
            unfold plexMaxFailures at h6
            omega
          rw [if_neg h7, if_neg hF, if_neg h71]
          simp

/-- C9 (amended): during an uninterrupted run of consecutive
stream-source failures from a healthy baseline, exactly one
service-unreachable event is emitted, and it is emitted on the
*seventh* consecutive failure (when the counter first exceeds the
maximum of 6) — not after the sixth. -/
theorem unreachable_event_after_seventh_failure (cfg : EngineConfig)
    (delays : RestorationDelays) (st : MonitorState)
    (h0 : st.plexConsecutiveFailures = 0) (hw : st.plexUnreachableWarned = false) :
    (∀ n, ((runConsecutiveFailures cfg delays st n).2).count Event.serviceUnreachable
      = if 7 ≤ n then 1 else 0) ∧
    (runConsecutiveFailures cfg delays st 7).2
      = (runConsecutiveFailures cfg delays st 6).2 ++ [Event.serviceUnreachable] := by
  obtain ⟨hf, hwarn, _⟩ := runConsecutiveFailures_profile cfg delays st h0 hw 6
  constructor
  · exact fun n => (runConsecutiveFailures_profile cfg delays st h0 hw n).2.2
  · have hc : plexMaxFailures < 6 + 1 ∧ ((decide (7 ≤ 6) : Bool)) = false := by
      refine ⟨?_, by decide⟩
      unfold plexMaxFailures
      omega
    show (runConsecutiveFailures cfg delays st (6 + 1)).2 = _
    rw [runConsecutiveFailures_succ, plex_poll_cycle_error_eq, hf, hwarn]
    rw [if_pos hc]

/-- Fixture: healthy baseline monitor state and restoration delays. -/
def c9St : MonitorState := ⟨[], [], false, 0, false⟩

def c9Delays : RestorationDelays := ⟨600, 1800⟩

/-- C9 counterexample: from a healthy baseline, a run of six
consecutive failures emits no service-unreachable event at all (the
claim says one is emitted after the sixth failure); the event appears
only on the seventh. -/
theorem unreachable_event_sixth_failure_counterexample :
    ((runConsecutiveFailures wCfg c9Delays c9St 6).2).count Event.serviceUnreachable = 0 ∧
    ((runConsecutiveFailures wCfg c9Delays c9St 7).2).count Event.serviceUnreachable = 1 := by
  refine ⟨by decide, by decide⟩

/-- Witness for `unreachable_event_after_seventh_failure` at the
concrete baseline. -/
theorem unreachable_event_after_seventh_failure_witness :
    (c9St.plexConsecutiveFailures = 0) ∧ (c9St.plexUnreachableWarned = false) ∧
    ((runConsecutiveFailures wCfg c9Delays c9St 9).2).count Event.serviceUnreachable
      = if 7 ≤ 9 then 1 else 0 :=
  ⟨rfl, rfl, (unreachable_event_after_seventh_failure wCfg c9Delays c9St rfl rfl).1 9⟩

/-- Local wall-clock time-of-day (seconds since midnight) derived from
the UTC time-of-day and a timezone offset in seconds. -/
def localTimeOfDay (utcNow : ℕ) (tzOffsetSec : ℤ) : ℕ :=
  (((utcNow : ℤ) + tzOffsetSec).emod 86400).toNat

/-- The claim's reading of capacity resolution, following the spec's
words: the same precedence, but with the schedule window tested
against the *local* wall-clock time rather than the UTC time-of-day
the source uses. -/
def effectiveDownloadLimitSpecLocal (cfg : EngineConfig) (tempDownload : Option ℚ)
    (utcNow : ℕ) (tzOffsetSec : ℤ) : ℚ :=
  effectiveDownloadLimit cfg tempDownload (localTimeOfDay utcNow tzOffsetSec)

/-- Fixture for C6: schedule window 10:00–11:00 with alternate total
300 Mbps, configured total 900 Mbps. -/
def c6Cfg : EngineConfig :=
  ⟨⟨900, [], 5, ⟨true, 36000, 39600, 300, []⟩⟩, ⟨40, [], noSchedule⟩, ⟨100, 0⟩, false⟩

/-- C6 counterexample: at UTC 08:30 with a +2 h timezone the local
wall-clock time 10:30 is inside the window, so the claim's reading
selects the 300 Mbps alternate; the code evaluates the window at the
UTC time-of-day and selects the configured 900 Mbps. -/
theorem schedule_clock_counterexample :
    effectiveDownloadLimitSpecLocal c6Cfg none 30600 7200 = 300 ∧
    effectiveDownloadLimit c6Cfg none 30600 = 900 ∧
    (300 : ℚ) ≠ 900 := by
  refine ⟨?_, ?_, by norm_num⟩
  · norm_num [effectiveDownloadLimitSpecLocal, localTimeOfDay, effectiveDownloadLimit,
      is_within_schedule, c6Cfg]
  · norm_num [effectiveDownloadLimit, is_within_schedule, c6Cfg]

/-- C6 (amended): capacity resolution precedence with the window
evaluated at the UTC time-of-day: an unexpired temporary override wins;
otherwise an enabled schedule whose window (inclusive bounds, wrapping
midnight when start > end) contains the current UTC time-of-day and
whose alternate total is positive supplies the alternate; otherwise the
configured total is used.  An expired override resolves to none. -/
theorem capacity_resolution_precedence (cfg : EngineConfig)
    (tl : Option TemporaryLimits) (nowAbs now : ℕ) :
    (∀ t, tl = some t → nowAbs > t.expiresAt →
      (get_active_temporary_limits tl nowAbs).1 = none) ∧
    (∀ t v, tl = some t → nowAbs ≤ t.expiresAt → t.downloadMbps = some v →
      effectiveDownloadLimit cfg (get_active_temporary_limits tl nowAbs).1 now = v) ∧
    ((get_active_temporary_limits tl nowAbs).1 = none →
      is_within_schedule cfg.download.scheduled now = true →
      cfg.download.scheduled.totalLimit > 0 →
      effectiveDownloadLimit cfg (get_active_temporary_limits tl nowAbs).1 now
        = cfg.download.scheduled.totalLimit) ∧
    ((get_active_temporary_limits tl nowAbs).1 = none →
      (is_within_schedule cfg.download.scheduled now = false
        ∨ cfg.download.scheduled.totalLimit ≤ 0) →
      effectiveDownloadLimit cfg (get_active_temporary_limits tl nowAbs).1 now
        = cfg.download.totalLimit) ∧
    (is_within_schedule cfg.download.scheduled now = true ↔
      (cfg.download.scheduled.enabled = true ∧
        ((cfg.download.scheduled.startSec ≤ cfg.download.scheduled.endSec ∧
          cfg.download.scheduled.startSec ≤ now ∧ now ≤ cfg.download.scheduled.endSec) ∨
         (cfg.download.scheduled.endSec < cfg.download.scheduled.startSec ∧
          (cfg.download.scheduled.startSec ≤ now ∨ now ≤ cfg.download.scheduled.endSec))))) := by
  refine ⟨?_, ?_, ?_, ?_, ?_⟩
  · intro t ht hexp
    subst ht
    simp [get_active_temporary_limits, hexp]
  · intro t v ht hlive hv
    subst ht
    simp [get_active_temporary_limits, not_lt.mpr hlive, hv, effectiveDownloadLimit]
  · intro h0 hw hpos
    rw [h0]
    simp [effectiveDownloadLimit, hw, hpos]
  · intro h0 hcase
    rw [h0]
    rcases hcase with hw | hpos
    · simp [effectiveDownloadLimit, hw]
    · simp [effectiveDownloadLimit, not_lt.mpr hpos]
  · unfold is_within_schedule
    by_cases he : cfg.download.scheduled.enabled
    · by_cases hse : cfg.download.scheduled.startSec ≤ cfg.download.scheduled.endSec
      · simp only [he, Bool.not_true, Bool.false_eq_true, if_false, if_pos hse,
          Bool.and_eq_true, decide_eq_true_eq]
        constructor
        · intro h
          exact ⟨trivial, Or.inl ⟨hse, h.1, h.2⟩⟩
        · intro h
          rcases h.2 with h2 | h2
          · exact ⟨h2.2.1, h2.2.2⟩
          · omega
      · simp only [he, Bool.not_true, Bool.false_eq_true, if_false, if_neg hse,
          Bool.or_eq_true, decide_eq_true_eq]
        constructor
        · intro h
          exact ⟨trivial, Or.inr ⟨by omega, by omega⟩⟩
        · intro h
          rcases h.2 with h2 | h2
          · omega
          · omega
    · have heF : cfg.download.scheduled.enabled = false := Bool.eq_false_iff.mpr he
      simp [heF]

/-- Witness for `capacity_resolution_precedence`: at 10:16:40 UTC the
10:00–11:00 window applies and the 300 Mbps alternate is selected. -/
theorem capacity_resolution_witness :
    ((get_active_temporary_limits none 0).1 = none) ∧
    (is_within_schedule c6Cfg.download.scheduled 37000 = true) ∧
    (c6Cfg.download.scheduled.totalLimit > 0) ∧
    (effectiveDownloadLimit c6Cfg (get_active_temporary_limits none 0).1 37000
      = c6Cfg.download.scheduled.totalLimit) :=
  ⟨rfl, by decide, by norm_num [c6Cfg],
   (capacity_resolution_precedence c6Cfg none 0 37000).2.2.1 rfl (by decide)
     (by norm_num [c6Cfg])⟩

/-- Reservation sums split along any boolean test. -/
theorem reservation_sum_filter_not (rs : List Reservation) (m : Reservation → Bool) :
    ((rs.filter (fun r => !m r)).map (fun r => r.bandwidthMbps)).sum
      = (rs.map (fun r => r.bandwidthMbps)).sum
        - ((rs.filter m).map (fun r => r.bandwidthMbps)).sum := by
  induction rs with
  | nil => simp
  | cons r t ih =>
    cases hm : m r
    · simp only [List.filter_cons, hm, Bool.not_false, if_pos, List.map_cons, List.sum_cons,
        Bool.false_eq_true, if_false]
      rw [ih]
      ring
    · simp only [List.filter_cons, hm, Bool.not_true, Bool.false_eq_true, if_false,
        List.map_cons, List.sum_cons, if_pos]
      rw [ih]
      ring

/-- With a truthy user and player, the reservation match test is plain
pair equality. -/
theorem reservationMatches_eq (u p : Option String) (r : Reservation)
    (hu : truthy u = true) (hp : truthy p = true) :
    reservationMatches u p r = decide (r.userId = u ∧ r.player = p) := by
  match u, hu with
  | some su, hu =>
  match p, hp with
  | some sp, hp =>
  unfold reservationMatches
  by_cases h1 : r.userId = some su
  · by_cases h2 : r.player = some sp
    · simp [h1, h2, truthy] at hu hp ⊢
      exact ⟨hu, hp⟩
    · have hb2 : (some sp == r.player) = false :=
        beq_eq_false_iff_ne.mpr (fun h => h2 h.symm)
      simp [h1, h2, hb2]
  · have hb1 : (some su == r.userId) = false :=
      beq_eq_false_iff_ne.mpr (fun h => h1 h.symm)
    simp [h1, hb1]

/-- C7: cancelling on a stream start removes exactly the reservations
whose (user, player) pair equals the starting stream's pair (the
cancelled bandwidth leaves the reserved total), and every reservation
with a different user or a different player survives. -/
theorem cancel_restoration_matches_pair (u p : Option String) (rs : List Reservation)
    (hu : truthy u = true) (hp : truthy p = true) :
    cancel_restoration u p rs
      = rs.filter (fun r => !(decide (r.userId = u ∧ r.player = p))) ∧
    get_total_reserved_bandwidth (cancel_restoration u p rs)
      = get_total_reserved_bandwidth rs
        - ((rs.filter (fun r => decide (r.userId = u ∧ r.player = p))).map
            (fun r => r.bandwidthMbps)).sum ∧
    (∀ r ∈ rs, (r.userId ≠ u ∨ r.player ≠ p) → r ∈ cancel_restoration u p rs) := by
  have hfil : cancel_restoration u p rs
      = rs.filter (fun r => !(decide (r.userId = u ∧ r.player = p))) := by
    unfold cancel_restoration
    apply List.filter_congr
    intro r _
    rw [reservationMatches_eq u p r hu hp]
  have hfil2 : rs.filter (fun r => reservationMatches u p r)
      = rs.filter (fun r => decide (r.userId = u ∧ r.player = p)) := by
    apply List.filter_congr
    intro r _
    rw [reservationMatches_eq u p r hu hp]
  refine ⟨hfil, ?_, ?_⟩
  · unfold get_total_reserved_bandwidth
    rw [hfil]
    exact reservation_sum_filter_not rs _
  · intro r hr hne
    rw [hfil]
    apply List.mem_filter.mpr
    refine ⟨hr, ?_⟩
    simp only [Bool.not_eq_true']
    apply decide_eq_false
    intro h
    rcases hne with hne | hne
    · exact hne h.1
    · exact hne h.2

/-- Fixture reservations for the C7 witness. -/
def c7Rs : List Reservation :=
  [⟨"r1", 60, some "alice", some "roku"⟩, ⟨"r2", 50, some "bob", some "roku"⟩,
   ⟨"r3", 25, some "alice", some "appletv"⟩]

/-- Witness for `cancel_restoration_matches_pair` at concrete
reservations: alice resuming on roku cancels only her roku hold. -/
theorem cancel_restoration_matches_pair_witness :
    (truthy (some "alice") = true) ∧ (truthy (some "roku") = true) ∧
    cancel_restoration (some "alice") (some "roku") c7Rs
      = c7Rs.filter (fun r => !(decide (r.userId = some "alice" ∧ r.player = some "roku"))) :=
  ⟨by decide, by decide,
   (cancel_restoration_matches_pair (some "alice") (some "roku") c7Rs
     (by decide) (by decide)).1⟩

/-- C8 counterexample: with a recorded original limit of 50 Mbps, the
SABnzbd adapter's restore writes the unlimited sentinel `"0"` instead
of the original. -/
theorem sabnzbd_restore_counterexample :
    Sabnzbd.restore_speed_limits_value ⟨some 50⟩ = 0 ∧ ((50 : ℚ) ≠ 0) :=
  ⟨rfl, by norm_num⟩

/-- C8 (amended): the SABnzbd adapter's restore always sets the daemon
to unlimited, ignoring the recorded original; the qBittorrent adapter
re-sets each side whose recorded original was positive and sends no
command (leaving the daemon's current limit in place, not unlimited)
for a side whose original was unlimited, and does nothing when no
originals were recorded; the base-class adapters (NZBGet, Transmission,
Deluge) write both recorded originals back as recorded. -/
theorem restore_limits_behavior :
    (∀ s : Sabnzbd.State, Sabnzbd.restore_speed_limits_value s = 0) ∧
    (QBittorrent.restore_speed_limits ⟨none⟩ = []) ∧
    (∀ d u : ℚ, 0 < d →
      QBittorrent.Command.setDownloadLimitBytes (pyInt (d * 1048576 / 8))
        ∈ QBittorrent.restore_speed_limits ⟨some (d, u)⟩) ∧
    (∀ d u : ℚ, d ≤ 0 → ∀ z : ℤ,
      QBittorrent.Command.setDownloadLimitBytes z
        ∉ QBittorrent.restore_speed_limits ⟨some (d, u)⟩) ∧
    (∀ o : Option (ℚ × ℚ), baseRestoreSpeedLimits o = o) := by
  refine ⟨fun s => rfl, rfl, ?_, ?_, fun o => rfl⟩
  · intro d u hd
    simp [QBittorrent.restore_speed_limits, QBittorrent.set_speed_limits, hd]
  · intro d u hd z
    have hnd : ¬ d > 0 := not_lt.mpr hd
    simp only [QBittorrent.restore_speed_limits, QBittorrent.set_speed_limits, if_neg hnd]
    split_ifs <;> simp

/-- Witness for `restore_limits_behavior`: an original download limit
of 50 Mbps is written back as 6553600 bytes/s. -/
theorem restore_limits_behavior_witness :
    (0 < (50 : ℚ)) ∧
    QBittorrent.Command.setDownloadLimitBytes (pyInt ((50 : ℚ) * 1048576 / 8))
      ∈ QBittorrent.restore_speed_limits ⟨some (50, 0)⟩ :=
  ⟨by norm_num, restore_limits_behavior.2.2.1 50 0 (by norm_num)⟩

end Speedarr
